import Mathlib

/-!
Verification development for the multi-level cache engine of the manga API
(`src/helper/axios_service.js`, class `CacheService`).

The JavaScript code is shallowly embedded: JS values stored in the cache are
modelled by the inductive `JVal` (JSON-like values plus `undefined`; numbers
are modelled as integers), `JSON.stringify` by `stringifyJson` (returning
`none` where the JS call produces `undefined`, making the subsequent `.length`
access throw), `JSON.parse` by a fuel-based recursive-descent parser
`parseJson` (returning `none` where JS throws a `SyntaxError`; string escapes
are modelled for quote and backslash only, and numeric literals as optionally
signed integers).  The two JS `Map`s are modelled by insertion-ordered
association lists, matching `Map`'s iteration-order and update semantics.
`Date.now()` is modelled by an explicit `now : Nat` argument per operation.
-/

set_option maxRecDepth 4000

namespace MangaCache

/-- JSON-like JavaScript values (numbers restricted to integers). -/
inductive JVal where
  | jnull : JVal
  | jundef : JVal
  | jbool : Bool → JVal
  | jnum : Int → JVal
  | jstr : String → JVal
  | jarr : List JVal → JVal
  | jobj : List (String × JVal) → JVal

def lbraceChar : Char := Char.ofNat 123

def rbraceChar : Char := Char.ofNat 125

def lbraceStr : String := "\x7b"

def rbraceStr : String := "\x7d"

def isUndefJ : JVal → Bool
  | JVal.jundef => true
  | _ => false

/-- Escaping done by `JSON.stringify` on string payloads (quote and backslash
only; control characters are outside the modelled fragment). -/
def escapeJsonChar (c : Char) : String :=
  if c = '"' then "\\\"" else if c = '\\' then "\\\\" else String.mk [c]

def escapeJsonString (s : String) : String :=
  String.join (s.data.map escapeJsonChar)

mutual

/-- Model of `JSON.stringify` on values where it returns a string: `undefined`
inside an array renders as `null`; `undefined`-valued object fields are
skipped (the top-level `undefined` case is handled in `stringifyJson`). -/
def renderJson : JVal → String
  | JVal.jnull => "null"
  | JVal.jundef => "null"
  | JVal.jbool true => "true"
  | JVal.jbool false => "false"
  | JVal.jnum n => toString n
  | JVal.jstr s => "\"" ++ escapeJsonString s ++ "\""
  | JVal.jarr xs => "[" ++ String.intercalate "," (renderItems xs) ++ "]"
  | JVal.jobj fs => lbraceStr ++ String.intercalate "," (renderFields fs) ++ rbraceStr

def renderItems : List JVal → List String
  | [] => []
  | x :: xs => renderJson x :: renderItems xs

def renderFields : List (String × JVal) → List String
  | [] => []
  | (k, v) :: rest =>
    if isUndefJ v then renderFields rest
    else ("\"" ++ escapeJsonString k ++ "\":" ++ renderJson v) :: renderFields rest

end

/-- `JSON.stringify(value)`: `none` models the cases where the JS expression
`JSON.stringify(value).length` throws (top-level `undefined`). -/
def stringifyJson (v : JVal) : Option String :=
  if isUndefJ v then none else some (renderJson v)

def skipWs (cs : List Char) : List Char :=
  cs.dropWhile (fun c => c = ' ' || c = '\n' || c = '\t' || c = '\r')

/-- Body of a JSON string literal after the opening quote: returns the
decoded characters and the remainder after the closing quote. -/
def parseStringChars : List Char → Option (List Char × List Char)
  | [] => none
  | '"' :: rest => some ([], rest)
  | '\\' :: '"' :: rest => (parseStringChars rest).map (fun p => ('"' :: p.1, p.2))
  | '\\' :: '\\' :: rest => (parseStringChars rest).map (fun p => ('\\' :: p.1, p.2))
  | '\\' :: _ => none
  | c :: rest => (parseStringChars rest).map (fun p => (c :: p.1, p.2))

def parseDigitsAux : List Char → Nat → Nat × List Char
  | [], acc => (acc, [])
  | c :: rest, acc =>
    if c.isDigit then parseDigitsAux rest (acc * 10 + (c.toNat - 48)) else (acc, c :: rest)

def parseNat (cs : List Char) : Option (Nat × List Char) :=
  match cs with
  | [] => none
  | c :: _ => if c.isDigit then some (parseDigitsAux cs 0) else none

mutual

/-- Fuel-based model of `JSON.parse` (one JSON value plus remainder). -/
def parseJVal : Nat → List Char → Option (JVal × List Char)
  | 0, _ => none
  | fuel + 1, cs =>
    match skipWs cs with
    | [] => none
    | c :: rest =>
      if c = 'n' then
        match rest with
        | 'u' :: 'l' :: 'l' :: rest2 => some (JVal.jnull, rest2)
        | _ => none
      else if c = 't' then
        match rest with
        | 'r' :: 'u' :: 'e' :: rest2 => some (JVal.jbool true, rest2)
        | _ => none
      else if c = 'f' then
        match rest with
        | 'a' :: 'l' :: 's' :: 'e' :: rest2 => some (JVal.jbool false, rest2)
        | _ => none
      else if c = '"' then
        (parseStringChars rest).map (fun p => (JVal.jstr (String.mk p.1), p.2))
      else if c = '-' then
        (parseNat rest).map (fun p => (JVal.jnum (-(p.1 : Int)), p.2))
      else if c.isDigit then
        (parseNat (c :: rest)).map (fun p => (JVal.jnum (p.1 : Int), p.2))
      else if c = '[' then
        match skipWs rest with
        | ']' :: rest2 => some (JVal.jarr [], rest2)
        | cs2 => (parseArrItems fuel cs2).map (fun p => (JVal.jarr p.1, p.2))
      else if c = lbraceChar then
        match skipWs rest with
        | [] => none
        | d :: rest2 =>
          if d = rbraceChar then some (JVal.jobj [], rest2)
          else (parseObjItems fuel (d :: rest2)).map (fun p => (JVal.jobj p.1, p.2))
      else none

def parseArrItems : Nat → List Char → Option (List JVal × List Char)
  | 0, _ => none
  | fuel + 1, cs =>
    match parseJVal fuel cs with
    | none => none
    | some (v, rest) =>
      match skipWs rest with
      | ',' :: rest2 => (parseArrItems fuel rest2).map (fun p => (v :: p.1, p.2))
      | ']' :: rest2 => some ([v], rest2)
      | _ => none

def parseObjItems : Nat → List Char → Option (List (String × JVal) × List Char)
  | 0, _ => none
  | fuel + 1, cs =>
    match skipWs cs with
    | '"' :: rest =>
      match parseStringChars rest with
      | none => none
      | some (kcs, rest2) =>
        match skipWs rest2 with
        | ':' :: rest3 =>
          match parseJVal fuel rest3 with
          | none => none
          | some (v, rest4) =>
            match skipWs rest4 with
            | [] => none
            | ',' :: rest5 => (parseObjItems fuel rest5).map (fun p => ((String.mk kcs, v) :: p.1, p.2))
            | d :: rest5 => if d = rbraceChar then some ([(String.mk kcs, v)], rest5) else none
        | _ => none
    | _ => none

end

/-- Model of `JSON.parse` on a whole string (`none` models a thrown
`SyntaxError`). -/
def parseJson (s : String) : Option JVal :=
  match parseJVal (s.length + 4) s.data with
  | some (v, rest) => if skipWs rest = [] then some v else none
  | none => none

/-- JavaScript truthiness of a modelled value. -/
def jsTruthy : JVal → Bool
  | JVal.jnull => false
  | JVal.jundef => false
  | JVal.jbool b => b
  | JVal.jnum n => n != 0
  | JVal.jstr s => s != ""
  | JVal.jarr _ => true
  | JVal.jobj _ => true

mutual

/-- JavaScript string coercion (used by template literals in `generateKey`). -/
def jsToString : JVal → String
  | JVal.jnull => "null"
  | JVal.jundef => "undefined"
  | JVal.jbool true => "true"
  | JVal.jbool false => "false"
  | JVal.jnum n => toString n
  | JVal.jstr s => s
  | JVal.jarr xs => String.intercalate "," (jsToStringList xs)
  | JVal.jobj _ => "[object Object]"

def jsToStringList : List JVal → List String
  | [] => []
  | x :: xs => jsToString x :: jsToStringList xs

end

/-! ## Data model of the cache (constructor, entries, tiers, statistics) -/

/-- A cache entry, as built by `CacheService.set` / mutated by `get`. -/
structure CacheEntry where
  value : JVal
  compressed : Bool
  expiresAt : Nat
  createdAt : Nat
  lastAccessed : Nat
  accessCount : Nat
  level : String
  tags : List String

/-- The `this.stats` counters. -/
structure Stats where
  hits : Nat
  misses : Nat
  sets : Nat
  deletes : Nat
  compressions : Nat
  decompressions : Nat
deriving DecidableEq

/-- The two tiers are JS `Map`s: modelled as insertion-ordered association
lists (`Map.set` updates in place, `Map.delete` removes, iteration follows
insertion order). -/
abbrev CMap := List (String × CacheEntry)

structure CacheState where
  l1 : CMap
  l2 : CMap
  stats : Stats

/-- The configuration fields fixed by the constructor. -/
structure Config where
  defaultTTL : Nat
  maxSize : Nat
  cleanupInterval : Nat
  enableCompression : Bool
  compressionThreshold : Nat
deriving DecidableEq

/-- The constructor's `options` argument (absent numeric fields are `none`). -/
structure CacheOptions where
  defaultTTL : Option Nat
  maxSize : Option Nat
  cleanupInterval : Option Nat
  enableCompression : Option Bool
  compressionThreshold : Option Nat

/-- `options.x || default` for numeric options (`0` is falsy in JS). -/
def orDefaultNat (o : Option Nat) (d : Nat) : Nat :=
  match o with
  | none => d
  | some 0 => d
  | some n => n

/-- The `CacheService` constructor's configuration processing. -/
def mkConfig (o : CacheOptions) : Config :=
  { defaultTTL := orDefaultNat o.defaultTTL 300000
    maxSize := orDefaultNat o.maxSize 1000
    cleanupInterval := orDefaultNat o.cleanupInterval 60000
    enableCompression := decide (o.enableCompression ≠ some false)
    compressionThreshold := orDefaultNat o.compressionThreshold 1024 }

def defaultConfig : Config := mkConfig ⟨none, none, none, none, none⟩

def emptyStats : Stats := ⟨0, 0, 0, 0, 0, 0⟩

def emptyState : CacheState := ⟨[], [], emptyStats⟩

/-! ### JS `Map` primitives on the association-list model -/

def mapGet (m : CMap) (k : String) : Option CacheEntry :=
  (m.find? (fun p => p.1 == k)).map (fun p => p.2)

def mapHas (m : CMap) (k : String) : Bool :=
  m.any (fun p => p.1 == k)

/-- `Map.set`: replace in place when the key exists, else append. -/
def mapSet (m : CMap) (k : String) (v : CacheEntry) : CMap :=
  if mapHas m k then m.map (fun p => if p.1 == k then (k, v) else p) else m ++ [(k, v)]

/-- `Map.delete`. -/
def mapDel (m : CMap) (k : String) : CMap :=
  m.filter (fun p => p.1 != k)

/-- `Map.size`. -/
def mapSize (m : CMap) : Nat := m.length

namespace CacheService

/-- `isExpired(item)`: `Date.now() > item.expiresAt`. -/
def isExpired (now : Nat) (item : CacheEntry) : Bool :=
  decide (item.expiresAt < now)

/-- `compress(value)`: `JSON.stringify(value)` (`none` = throw). -/
def compress (value : JVal) : Option String :=
  stringifyJson value

/-- `decompress(compressed)`: `JSON.parse(compressed)` (`none` = throw; the
stored value is a string whenever it was produced by `compress`). -/
def decompress (compressed : JVal) : Option JVal :=
  match compressed with
  | JVal.jstr s => parseJson s
  | _ => none

/-- `delete(key)`: remove from both tiers, bump `deletes` if found in either. -/
def delete (key : String) (s : CacheState) : Bool × CacheState :=
  let l1Deleted := mapHas s.l1 key
  let l2Deleted := mapHas s.l2 key
  let found := l1Deleted || l2Deleted
  (found,
   { l1 := mapDel s.l1 key
     l2 := mapDel s.l2 key
     stats := if found then { s.stats with deletes := s.stats.deletes + 1 } else s.stats })

end CacheService

/-- `item.lastAccessed = Date.now(); item.accessCount = (item.accessCount || 0) + 1`. -/
def touchEntry (now : Nat) (e : CacheEntry) : CacheEntry :=
  { e with lastAccessed := now, accessCount := e.accessCount + 1 }

/-- Write back the access-time mutation.  In JS the found item is mutated in
place; after a promotion the same object sits in both tiers, so the mutation
is visible in both (`fromL2 = true`).  When the hit is served directly from
L1 only the L1 entry is written (an aliased stale L2 copy may lag behind in
`lastAccessed`/`accessCount`, but no operation of the class ever reads those
two fields from L2). -/
def writeTouched (now : Nat) (key : String) (e : CacheEntry) (fromL2 : Bool)
    (s : CacheState) : CacheState :=
  let e2 := touchEntry now e
  { s with l1 := mapSet s.l1 key e2, l2 := if fromL2 then mapSet s.l2 key e2 else s.l2 }

def bumpHits (s : CacheState) : CacheState :=
  { s with stats := { s.stats with hits := s.stats.hits + 1 } }

def bumpMisses (s : CacheState) : CacheState :=
  { s with stats := { s.stats with misses := s.stats.misses + 1 } }

def bumpDecompressions (s : CacheState) : CacheState :=
  { s with stats := { s.stats with decompressions := s.stats.decompressions + 1 } }

/-- The tail of `get` after a live entry was found (`this.stats.hits++` and
onward); `fromL2` records whether the entry was just promoted. -/
def hitPath (cfg : Config) (now : Nat) (key : String) (e : CacheEntry) (fromL2 : Bool)
    (s : CacheState) : JVal × CacheState :=
  let s1 := bumpHits s
  if e.compressed && cfg.enableCompression then
    match CacheService.decompress e.value with
    | some v => (v, writeTouched now key e fromL2 (bumpDecompressions s1))
    | none => (JVal.jnull, (CacheService.delete key s1).2)
  else
    (e.value, writeTouched now key e fromL2 s1)

/-- The L2 probe of `get` (reached when L1 has no entry or an expired one).
The JS variable `item` now holds the L2 lookup result, so the miss branch's
`if (item && this.isExpired(item)) this.delete(key)` fires only when L2 held
an (expired) entry — an expired entry that sat only in L1 is left in place. -/
def probeL2 (cfg : Config) (now : Nat) (key : String) (s : CacheState) : JVal × CacheState :=
  match mapGet s.l2 key with
  | some e2 =>
    if CacheService.isExpired now e2 then
      (JVal.jnull, (CacheService.delete key (bumpMisses s)).2)
    else
      hitPath cfg now key e2 true { s with l1 := mapSet s.l1 key e2 }
  | none => (JVal.jnull, bumpMisses s)

namespace CacheService

/-- `get(key)` — returns the JS return value (`jnull` models the `null`
returned on a miss) and the successor state. -/
def get (cfg : Config) (now : Nat) (key : String) (s : CacheState) : JVal × CacheState :=
  match mapGet s.l1 key with
  | some e1 =>
    if isExpired now e1 then probeL2 cfg now key s else hitPath cfg now key e1 false s
  | none => probeL2 cfg now key s

end CacheService

/-- The LRU scan of `evictLRU`: fold over L1 in iteration (= insertion) order
starting from `lruKey = null, lruTime = Date.now()`, keeping a strictly
smaller `lastAccessed`. -/
def lruSelect (now : Nat) (l1 : CMap) : Option String × Nat :=
  l1.foldl (fun acc p => if p.2.lastAccessed < acc.2 then (some p.1, p.2.lastAccessed) else acc)
    (none, now)

namespace CacheService

/-- `evictLRU()` acting on the two tiers.  Note the JS guard `if (lruKey)` is
a truthiness test, so a selected empty-string key is also skipped. -/
def evictLRU (now : Nat) (maxSize : Nat) (l1 l2 : CMap) : CMap × CMap :=
  if mapSize l1 = 0 then (l1, l2)
  else
    match lruSelect now l1 with
    | (some lruKey, _) =>
      if lruKey ≠ "" then
        match mapGet l1 lruKey with
        | some item =>
          let l1b := mapDel l1 lruKey
          if mapSize l2 < maxSize then
            (l1b, mapSet l2 lruKey { item with level := "L2" })
          else (l1b, l2)
        | none => (mapDel l1 lruKey, l2)
      else (l1, l2)
    | (none, _) => (l1, l2)

end CacheService

/-- The `options` argument of `set`. -/
structure SetOptions where
  level : Option String
  tags : Option (List String)
  compress : Option Bool
deriving DecidableEq

def defaultSetOptions : SetOptions := ⟨none, none, none⟩

/-- `ttl || this.defaultTTL` (a `0`/`null` ttl falls back to the default). -/
def effTTL (cfg : Config) (ttl : Option Nat) : Nat :=
  match ttl with
  | none => cfg.defaultTTL
  | some 0 => cfg.defaultTTL
  | some n => n

/-- `options.level || 'L1'`. -/
def effLevel (o : Option String) : String :=
  match o with
  | none => "L1"
  | some "" => "L1"
  | some s => s

/-- `options.tags || []` (a present array, even empty, is truthy). -/
def effTags (o : Option (List String)) : List String := o.getD []

/-- The compression block of `set`.  `JSON.stringify(value).length` sits
outside the `try`, so a serialization failure propagates (`none`).  When it
succeeds, `compress` re-runs the same `JSON.stringify` and therefore cannot
fail, making the `catch` branch dead; the result is
`(cacheValue, compressed, compressions-bumped?)`. -/
def compressStep (cfg : Config) (opts : SetOptions) (value : JVal) :
    Option (JVal × Bool × Bool) :=
  if cfg.enableCompression = true ∧ opts.compress ≠ some false then
    match stringifyJson value with
    | none => none
    | some str =>
      if str.length > cfg.compressionThreshold then some (JVal.jstr str, true, true)
      else some (value, false, false)
  else some (value, false, false)

def bumpCompressions (s : CacheState) : CacheState :=
  { s with stats := { s.stats with compressions := s.stats.compressions + 1 } }

def bumpSets (s : CacheState) : CacheState :=
  { s with stats := { s.stats with sets := s.stats.sets + 1 } }

/-- The capacity check at the top of `set`:
`if (this.l1Cache.size >= this.maxSize) this.evictLRU()`. -/
def setStage1 (cfg : Config) (now : Nat) (s : CacheState) : CacheState :=
  if mapSize s.l1 ≥ cfg.maxSize then
    let p := CacheService.evictLRU now cfg.maxSize s.l1 s.l2
    { s with l1 := p.1, l2 := p.2 }
  else s

/-- The entry object built by `set`. -/
def mkItem (cfg : Config) (now : Nat) (cacheValue : JVal) (compressed : Bool)
    (ttl : Option Nat) (options : SetOptions) : CacheEntry :=
  { value := cacheValue
    compressed := compressed
    expiresAt := now + effTTL cfg ttl
    createdAt := now
    lastAccessed := now
    accessCount := 0
    level := effLevel options.level
    tags := effTags options.tags }

/-- Tier selection of `set`:
`if (options.level === 'L2' || this.l1Cache.size >= this.maxSize * 0.8)`.
The float comparison `size >= maxSize * 0.8` is modelled as
`5 * size ≥ 4 * maxSize`, which agrees with it on integer sizes. -/
def setStore (cfg : Config) (key : String) (item : CacheEntry) (options : SetOptions)
    (s2 : CacheState) : CacheState :=
  if options.level = some "L2" ∨ 5 * mapSize s2.l1 ≥ 4 * cfg.maxSize then
    { s2 with l2 := mapSet s2.l2 key item }
  else
    { s2 with l1 := mapSet s2.l1 key item }

namespace CacheService

/-- `set(key, value, ttl, options)`.  The `Bool` is `true` when the call
completed normally and `false` when it threw (serialized-size computation
failed); in the throwing case the returned state reflects the already-applied
eviction, with nothing stored and no counter bumped. -/
def set (cfg : Config) (now : Nat) (key : String) (value : JVal) (ttl : Option Nat)
    (options : SetOptions) (s : CacheState) : CacheState × Bool :=
  let s1 := setStage1 cfg now s
  match compressStep cfg options value with
  | none => (s1, false)
  | some (cacheValue, compressed, didCompress) =>
    let s2 := if didCompress then bumpCompressions s1 else s1
    let item := mkItem cfg now cacheValue compressed ttl options
    (bumpSets (setStore cfg key item options s2), true)

/-- `clear()`: empty both tiers, fold the cumulative `sets` counter into
`deletes`. -/
def clear (s : CacheState) : CacheState :=
  { l1 := [], l2 := [], stats := { s.stats with deletes := s.stats.deletes + s.stats.sets } }

end CacheService

/-- Matching of `new RegExp('^' + pattern.replace(/\*{1}/g, '.*') + '$')`
against a key, modelled on the glob fragment actually used by the callers:
`*` matches any sequence, `.` (a regex metacharacter left unescaped by the
code) matches any single character, every other character matches itself. -/
def globMatch : List Char → List Char → Bool
  | [], [] => true
  | [], _ :: _ => false
  | '*' :: ps, s =>
    globMatch ps s ||
      (match s with
       | [] => false
       | _ :: s2 => globMatch ('*' :: ps) s2)
  | '.' :: ps, s =>
    (match s with
     | [] => false
     | _ :: s2 => globMatch ps s2)
  | c :: ps, s =>
    (match s with
     | [] => false
     | d :: s2 => if d = c then globMatch ps s2 else false)
termination_by p s => p.length + s.length

def matchesPattern (pattern key : String) : Bool :=
  globMatch pattern.data key.data

namespace CacheService

/-- `invalidatePattern(pattern)`: remove every matching key from both tiers,
return the count, bump `deletes` by it.  (The JS `forEach` deletes the
currently visited key, which `Map` iteration tolerates; the net effect is a
filter.) -/
def invalidatePattern (pattern : String) (s : CacheState) : Nat × CacheState :=
  let c1 := (s.l1.filter (fun p => matchesPattern pattern p.1)).length
  let c2 := (s.l2.filter (fun p => matchesPattern pattern p.1)).length
  let count := c1 + c2
  (count,
   { l1 := s.l1.filter (fun p => !(matchesPattern pattern p.1))
     l2 := s.l2.filter (fun p => !(matchesPattern pattern p.1))
     stats := { s.stats with deletes := s.stats.deletes + count } })

/-- `invalidateByTags(tags)`. -/
def invalidateByTags (tags : List String) (s : CacheState) : Nat × CacheState :=
  let hit := fun (e : CacheEntry) => e.tags.any (fun t => tags.contains t)
  let c1 := (s.l1.filter (fun p => hit p.2)).length
  let c2 := (s.l2.filter (fun p => hit p.2)).length
  let count := c1 + c2
  (count,
   { l1 := s.l1.filter (fun p => !(hit p.2))
     l2 := s.l2.filter (fun p => !(hit p.2))
     stats := { s.stats with deletes := s.stats.deletes + count } })

/-- `cleanup()`: sweep expired keys from both tiers (collect first, then
delete — no `deletes` bump), then evict if L1 exceeds 90% of `maxSize`.
`l1.size > maxSize * 0.9` is modelled as `10 * size > 9 * maxSize`, which
agrees with the JS float comparison for integer sizes. -/
def cleanup (cfg : Config) (now : Nat) (s : CacheState) : CacheState :=
  let l1b := s.l1.filter (fun p => !(isExpired now p.2))
  let l2b := s.l2.filter (fun p => !(isExpired now p.2))
  let s1 := { s with l1 := l1b, l2 := l2b }
  if 10 * mapSize l1b > 9 * cfg.maxSize then
    let p := evictLRU now cfg.maxSize s1.l1 s1.l2
    { s1 with l1 := p.1, l2 := p.2 }
  else s1

end CacheService

/-- One element of the `warmCache(items)` batch. -/
structure WarmItem where
  key : String
  value : JVal
  ttl : Option Nat
  options : SetOptions

namespace CacheService

/-- `warmCache(items)`: the body is synchronous, `isWarming` can never be
observed `true` by a second call in the single-threaded execution model, so
the pending-queue branch is unreachable and a warm pass is a sequential fold
of `set` over the batch.  A throwing `set` aborts the pass (`false`). -/
def warmCache (cfg : Config) (now : Nat) : List WarmItem → CacheState → CacheState × Bool
  | [], s => (s, true)
  | it :: rest, s =>
    let r := set cfg now it.key it.value it.ttl it.options s
    if r.2 then warmCache cfg now rest r.1 else (r.1, false)

/-- `getItemSize(item)`: `JSON.stringify(item.value).length`, `0` on a thrown
serialization (the `catch` branch). -/
def getItemSize (item : CacheEntry) : Nat :=
  match stringifyJson item.value with
  | some str => str.length
  | none => 0

end CacheService

def pad2 (n : Nat) : String :=
  if n < 10 then "0" ++ toString n else toString n

/-- `x.toFixed(2)` for the nonnegative rational `num / den` (`den ≠ 0`):
round half away from zero to hundredths, render with two decimals.  The JS
computation happens in IEEE doubles; the two agree on the exactly
representable ratios exercised here. -/
def toFixed2Rat (num den : Nat) : String :=
  let r := (200 * num + den) / (2 * den)
  toString (r / 100) ++ "." ++ pad2 (r % 100)

/-- `getStats()` per-tier block. -/
structure TierStats where
  size : Nat
  expired : Nat
  active : Nat
deriving DecidableEq

structure TotalStats where
  size : Nat
  expired : Nat
  active : Nat
  estimatedSize : Nat
deriving DecidableEq

/-- `getStats()` performance block; `hitRate` is the string
`` `${hitRate}%` `` built from either `toFixed(2)` output or the number 0. -/
structure PerfStats where
  hits : Nat
  misses : Nat
  hitRate : String
  sets : Nat
  deletes : Nat
  compressions : Nat
  decompressions : Nat
deriving DecidableEq

structure StatsReport where
  l1 : TierStats
  l2 : TierStats
  total : TotalStats
  performance : PerfStats
deriving DecidableEq

namespace CacheService

/-- `getStats()`. -/
def getStats (now : Nat) (s : CacheState) : StatsReport :=
  let l1Expired := (s.l1.filter (fun p => isExpired now p.2)).length
  let l2Expired := (s.l2.filter (fun p => isExpired now p.2)).length
  let totalSize :=
    (s.l1.map (fun p => getItemSize p.2)).sum + (s.l2.map (fun p => getItemSize p.2)).sum
  let hitRate : String :=
    if s.stats.hits + s.stats.misses > 0 then
      toFixed2Rat (s.stats.hits * 100) (s.stats.hits + s.stats.misses) ++ "%"
    else "0%"
  { l1 := ⟨mapSize s.l1, l1Expired, mapSize s.l1 - l1Expired⟩
    l2 := ⟨mapSize s.l2, l2Expired, mapSize s.l2 - l2Expired⟩
    total := ⟨mapSize s.l1 + mapSize s.l2, l1Expired + l2Expired,
              (mapSize s.l1 + mapSize s.l2) - (l1Expired + l2Expired), totalSize⟩
    performance := ⟨s.stats.hits, s.stats.misses, hitRate, s.stats.sets, s.stats.deletes,
                    s.stats.compressions, s.stats.decompressions⟩ }

end CacheService

def volatileKey (k : String) : Bool :=
  k == "_t" || k == "timestamp" || k == "nocache"

def insertStr (x : String) : List String → List String
  | [] => [x]
  | y :: ys => if x < y then x :: y :: ys else y :: insertStr x ys

/-- `Array.prototype.sort()` on key strings (lexicographic). -/
def sortStrings : List String → List String
  | [] => []
  | x :: xs => insertStr x (sortStrings xs)

def lookupParam (params : List (String × JVal)) (k : String) : Option JVal :=
  ((params.find? (fun p => p.1 == k)).map (fun p => p.2))

namespace CacheService

/-- `generateKey(url, params)`: drop volatile keys, sort the remaining keys,
keep those whose value is neither `undefined` nor `null`, render `k=v` pairs
(template-literal string coercion) joined by `&`, append as a query string
when non-empty.  `params` is the spread of a JS object, so its keys are
assumed distinct. -/
def generateKey (url : String) (params : List (String × JVal)) : String :=
  let keys := sortStrings ((params.map (fun p => p.1)).filter (fun k => !(volatileKey k)))
  let pairs := keys.filterMap (fun k =>
    match lookupParam params k with
    | some JVal.jundef => none
    | some JVal.jnull => none
    | some v => some (k ++ "=" ++ jsToString v)
    | none => none)
  let ps := String.intercalate "&" pairs
  if ps = "" then url else url ++ "?" ++ ps

end CacheService

/-- Observable outcome of one request through `middleware(ttl)`: the
`X-Cache` header value, the emitted body, the cache state afterwards, and
whether the interposed `res.json` threw (a `set` failure propagating out of
the emission step, before the MISS header is written). -/
structure MwOut where
  status : String
  body : JVal
  state : CacheState
  threw : Bool

namespace CacheService

/-- `middleware(ttl)` on one request: derive the key from the request's URL
and query, `get`; on a truthy cached value mark HIT and emit it; otherwise
let the pipeline produce `downstream` and cache it via `set` before emitting
with the MISS mark.  `nowGet`/`nowSet` are the clock readings of the two
phases. -/
def middleware (cfg : Config) (ttl : Option Nat) (nowGet nowSet : Nat) (url : String)
    (query : List (String × JVal)) (downstream : JVal) (s : CacheState) : MwOut :=
  let key := generateKey url query
  let g := get cfg nowGet key s
  if jsTruthy g.1 then ⟨"HIT", g.1, g.2, false⟩
  else
    let r := set cfg nowSet key downstream ttl defaultSetOptions g.2
    if r.2 then ⟨"MISS", downstream, r.1, false⟩ else ⟨"", downstream, r.1, true⟩

end CacheService

/-! ## Lemmas about the `Map` model -/

theorem find_none_of_not_has (k : String) :
    ∀ m : CMap, mapHas m k = false → m.find? (fun p => p.1 == k) = none := by
  intro m
  induction m with
  | nil => intro _; rfl
  | cons p rest ih =>
    intro h
    simp only [mapHas, List.any_cons, Bool.or_eq_false_iff] at h
    simp only [List.find?, h.1]
    exact ih h.2

theorem mapGet_none_of_not_has {k : String} {m : CMap} (h : mapHas m k = false) :
    mapGet m k = none := by
  simp only [mapGet, find_none_of_not_has k m h, Option.map_none']

theorem mapGet_append_single (k : String) (v : CacheEntry) :
    ∀ m : CMap, mapHas m k = false → mapGet (m ++ [(k, v)]) k = some v := by
  intro m
  induction m with
  | nil => intro _; simp [mapGet, List.find?]
  | cons p rest ih =>
    intro h
    simp only [mapHas, List.any_cons, Bool.or_eq_false_iff] at h
    simp only [List.cons_append, mapGet, List.find?, h.1]
    exact ih h.2

theorem mapGet_mapreplace (k : String) (v : CacheEntry) :
    ∀ m : CMap, mapHas m k = true →
      mapGet (m.map (fun p => if p.1 == k then (k, v) else p)) k = some v := by
  intro m
  induction m with
  | nil => intro h; simp [mapHas] at h
  | cons p rest ih =>
    intro h
    by_cases hp : p.1 == k
    · simp [mapGet, List.find?, hp]
    · have hp' : (p.1 == k) = false := by simpa using hp
      simp only [mapHas, List.any_cons, hp', Bool.false_or] at h
      simpa [mapGet, List.find?, hp'] using ih h

theorem mapGet_mapSet_self (m : CMap) (k : String) (v : CacheEntry) :
    mapGet (mapSet m k v) k = some v := by
  unfold mapSet
  by_cases h : mapHas m k
  · rw [if_pos h]; exact mapGet_mapreplace k v m h
  · rw [if_neg h]; exact mapGet_append_single k v m (Bool.eq_false_iff.2 h)

theorem mapGet_mapDel_self (k : String) :
    ∀ m : CMap, mapGet (mapDel m k) k = none := by
  intro m
  induction m with
  | nil => rfl
  | cons p rest ih =>
    by_cases hp : p.1 == k
    · have : (p.1 != k) = false := by simp [bne, hp]
      simpa [mapDel, List.filter, this] using ih
    · have hb : (p.1 != k) = true := by simp [bne]; simpa using hp
      have hp' : (p.1 == k) = false := by simpa using hp
      simp only [mapDel, List.filter, hb, mapGet, List.find?, hp'] at ih ⊢
      exact ih

theorem mapGet_mapDel_ne {k' key : String} (hne : key ≠ k') :
    ∀ m : CMap, mapGet (mapDel m k') key = mapGet m key := by
  intro m
  induction m with
  | nil => rfl
  | cons p rest ih =>
    by_cases hp : p.1 == k'
    · have hpk : (p.1 == key) = false := by
        have : p.1 = k' := by simpa using hp
        simp [this, Ne.symm hne]
      have : (p.1 != k') = false := by simp [bne, hp]
      simpa [mapDel, List.filter, this, mapGet, List.find?, hpk] using ih
    · have hb : (p.1 != k') = true := by simp [bne]; simpa using hp
      by_cases hpk : p.1 == key
      · simp [mapDel, List.filter, hb, mapGet, List.find?, hpk]
      · simpa [mapDel, List.filter, hb, mapGet, List.find?, hpk] using ih

theorem length_mapSet_le (m : CMap) (k : String) (v : CacheEntry) :
    (mapSet m k v).length ≤ m.length + 1 := by
  unfold mapSet
  split
  · simp
  · simp

theorem length_mapDel_le (m : CMap) (k : String) : (mapDel m k).length ≤ m.length :=
  List.length_filter_le _ m

theorem length_mapDel_lt (k : String) :
    ∀ m : CMap, mapHas m k = true → (mapDel m k).length < m.length := by
  intro m
  induction m with
  | nil => intro h; simp [mapHas] at h
  | cons p rest ih =>
    intro h
    by_cases hp : p.1 == k
    · have : (p.1 != k) = false := by simp [bne, hp]
      calc (mapDel (p :: rest) k).length = (mapDel rest k).length := by
            simp [mapDel, List.filter, this]
        _ ≤ rest.length := length_mapDel_le rest k
        _ < (p :: rest).length := by simp
    · simp only [mapHas, List.any_cons, hp, Bool.false_or] at h
      have hb : (p.1 != k) = true := by simp [bne]; simpa using hp
      have := ih h
      simp only [mapDel, List.filter, hb] at this ⊢
      simpa using Nat.succ_lt_succ this

/-! ## Lemmas about eviction -/

theorem lruSelect_aux (k : String) :
    ∀ (l1 : CMap) (acc : Option String × Nat),
      (l1.foldl (fun acc p =>
        if p.2.lastAccessed < acc.2 then (some p.1, p.2.lastAccessed) else acc) acc).1 = some k →
      acc.1 = some k ∨ mapHas l1 k = true := by
  intro l1
  induction l1 with
  | nil => intro acc h; exact Or.inl h
  | cons p rest ih =>
    intro acc h
    simp only [List.foldl_cons] at h
    rcases ih _ h with h' | h'
    · by_cases hlt : p.2.lastAccessed < acc.2
      · rw [if_pos hlt] at h'
        right
        have : p.1 = k := by simpa using h'
        simp [mapHas, List.any_cons, this]
      · rw [if_neg hlt] at h'
        exact Or.inl h'
    · right
      simp only [mapHas, List.any_cons, Bool.or_eq_true]
      exact Or.inr h'

theorem lruSelect_some_has {now : Nat} {l1 : CMap} {k : String} {t : Nat}
    (h : lruSelect now l1 = (some k, t)) : mapHas l1 k = true := by
  have h1 : (lruSelect now l1).1 = some k := by rw [h]
  rcases lruSelect_aux k l1 (none, now) h1 with h' | h'
  · exact absurd h' (by simp)
  · exact h'

theorem evict_l1_cases (now maxSize : Nat) (l1 l2 : CMap) :
    (CacheService.evictLRU now maxSize l1 l2).1 = l1 ∨
      ((CacheService.evictLRU now maxSize l1 l2).1).length < l1.length := by
  unfold CacheService.evictLRU
  by_cases h0 : mapSize l1 = 0
  · rw [if_pos h0]; exact Or.inl rfl
  · rw [if_neg h0]
    rcases hsel : lruSelect now l1 with ⟨ok, t⟩
    cases ok with
    | none => exact Or.inl rfl
    | some k =>
      dsimp only
      by_cases hk : k ≠ ""
      · rw [if_pos hk]
        have hhas := lruSelect_some_has hsel
        have hlt := length_mapDel_lt k l1 hhas
        cases hget : mapGet l1 k with
        | some item =>
          dsimp only
          by_cases hcap : mapSize l2 < maxSize
          · rw [if_pos hcap]; exact Or.inr hlt
          · rw [if_neg hcap]; exact Or.inr hlt
        | none => exact Or.inr hlt
      · rw [if_neg hk]; exact Or.inl rfl

theorem evict_get_cases (now maxSize : Nat) (l1 l2 : CMap) (key : String) :
    mapGet (CacheService.evictLRU now maxSize l1 l2).1 key = mapGet l1 key ∨
      mapGet (CacheService.evictLRU now maxSize l1 l2).1 key = none := by
  unfold CacheService.evictLRU
  by_cases h0 : mapSize l1 = 0
  · rw [if_pos h0]; exact Or.inl rfl
  · rw [if_neg h0]
    rcases hsel : lruSelect now l1 with ⟨ok, t⟩
    cases ok with
    | none => exact Or.inl rfl
    | some k =>
      dsimp only
      by_cases hk : k ≠ ""
      · rw [if_pos hk]
        have hdel : mapGet (mapDel l1 k) key = mapGet l1 key ∨ mapGet (mapDel l1 k) key = none := by
          by_cases hek : key = k
          · subst hek; exact Or.inr (mapGet_mapDel_self key l1)
          · exact Or.inl (mapGet_mapDel_ne hek l1)
        cases hget : mapGet l1 k with
        | some item =>
          dsimp only
          by_cases hcap : mapSize l2 < maxSize
          · rw [if_pos hcap]; exact hdel
          · rw [if_neg hcap]; exact hdel
        | none => exact hdel
      · rw [if_neg hk]; exact Or.inl rfl

theorem lruSelect_noop {now : Nat} :
    ∀ (l1 : CMap), (∀ p ∈ l1, ¬ p.2.lastAccessed < now) → lruSelect now l1 = (none, now) := by
  have aux : ∀ (l1 : CMap) (acc : Option String × Nat),
      (∀ p ∈ l1, ¬ p.2.lastAccessed < acc.2) →
      l1.foldl (fun acc p =>
        if p.2.lastAccessed < acc.2 then (some p.1, p.2.lastAccessed) else acc) acc = acc := by
    intro l1
    induction l1 with
    | nil => intro acc _; rfl
    | cons p rest ih =>
      intro acc h
      simp only [List.foldl_cons, if_neg (h p (List.mem_cons_self p rest))]
      exact ih acc (fun q hq => h q (List.mem_cons_of_mem p hq))
  intro l1 h
  exact aux l1 (none, now) h

/-- With no entry strictly older than the current time, `evictLRU` is a
no-op even on a non-empty L1. -/
theorem evict_noop_of_no_older (now maxSize : Nat) (l1 l2 : CMap)
    (h : ∀ p ∈ l1, ¬ p.2.lastAccessed < now) :
    CacheService.evictLRU now maxSize l1 l2 = (l1, l2) := by
  unfold CacheService.evictLRU
  by_cases h0 : mapSize l1 = 0
  · rw [if_pos h0]
  · rw [if_neg h0, lruSelect_noop l1 h]

theorem compressStep_spec {cfg : Config} {opts : SetOptions} {v cv : JVal} {comp d : Bool}
    (h : compressStep cfg opts v = some (cv, comp, d)) :
    (comp = false ∧ cv = v) ∨
      (comp = true ∧ cfg.enableCompression = true ∧ cv = JVal.jstr (renderJson v)) := by
  unfold compressStep at h
  by_cases hc : cfg.enableCompression = true ∧ opts.compress ≠ some false
  · rw [if_pos hc] at h
    cases hs : stringifyJson v with
    | none => rw [hs] at h; exact absurd h (by simp)
    | some str =>
      rw [hs] at h
      dsimp only at h
      have hstr : str = renderJson v := by
        unfold stringifyJson at hs
        by_cases hu : isUndefJ v = true
        · rw [if_pos hu] at hs; exact absurd hs (by simp)
        · rw [if_neg hu] at hs
          exact (Option.some_injective _ hs).symm
      by_cases hth : str.length > cfg.compressionThreshold
      · rw [if_pos hth] at h
        simp only [Option.some.injEq, Prod.mk.injEq] at h
        right
        exact ⟨h.2.1.symm, hc.1, by rw [← h.1, hstr]⟩
      · rw [if_neg hth] at h
        simp only [Option.some.injEq, Prod.mk.injEq] at h
        left
        exact ⟨h.2.1.symm, h.1.symm⟩
  · rw [if_neg hc] at h
    simp only [Option.some.injEq, Prod.mk.injEq] at h
    left
    exact ⟨h.2.1.symm, h.1.symm⟩

/-! ## Unfolding lemmas for `get` -/

theorem mapHas_of_get_some {m : CMap} {k : String} {e : CacheEntry}
    (h : mapGet m k = some e) : mapHas m k = true := by
  by_cases hh : mapHas m k
  · exact hh
  · rw [mapGet_none_of_not_has (Bool.eq_false_iff.2 hh)] at h
    exact absurd h (by simp)

theorem mapGet_some_of_has {m : CMap} {k : String} (h : mapHas m k = true) :
    ∃ e, mapGet m k = some e := by
  cases hg : mapGet m k with
  | some e => exact ⟨e, rfl⟩
  | none =>
    induction m with
    | nil => simp [mapHas] at h
    | cons p rest ih =>
      by_cases hp : p.1 == k
      · simp [mapGet, List.find?, hp] at hg
      · have hp' : (p.1 == k) = false := by simpa using hp
        simp only [mapHas, List.any_cons, hp', Bool.false_or] at h
        simp only [mapGet, List.find?, hp'] at hg ih
        exact ih h hg

theorem get_eq_probeL2_of_l1_none {cfg : Config} {now : Nat} {key : String} {s : CacheState}
    (h : mapGet s.l1 key = none) :
    CacheService.get cfg now key s = probeL2 cfg now key s := by
  unfold CacheService.get
  rw [h]

theorem get_eq_probeL2_of_l1_expired {cfg : Config} {now : Nat} {key : String} {s : CacheState}
    {e : CacheEntry} (h : mapGet s.l1 key = some e)
    (hx : CacheService.isExpired now e = true) :
    CacheService.get cfg now key s = probeL2 cfg now key s := by
  unfold CacheService.get
  rw [h]
  dsimp only
  rw [if_pos hx]

theorem get_eq_hitPath_of_l1_live {cfg : Config} {now : Nat} {key : String} {s : CacheState}
    {e : CacheEntry} (h : mapGet s.l1 key = some e)
    (hx : CacheService.isExpired now e = false) :
    CacheService.get cfg now key s = hitPath cfg now key e false s := by
  unfold CacheService.get
  rw [h]
  dsimp only
  rw [if_neg (by simp [hx])]

theorem probeL2_of_none {cfg : Config} {now : Nat} {key : String} {s : CacheState}
    (h : mapGet s.l2 key = none) :
    probeL2 cfg now key s = (JVal.jnull, bumpMisses s) := by
  unfold probeL2
  rw [h]

theorem probeL2_of_expired {cfg : Config} {now : Nat} {key : String} {s : CacheState}
    {e : CacheEntry} (h : mapGet s.l2 key = some e)
    (hx : CacheService.isExpired now e = true) :
    probeL2 cfg now key s = (JVal.jnull, (CacheService.delete key (bumpMisses s)).2) := by
  unfold probeL2
  rw [h]
  dsimp only
  rw [if_pos hx]

theorem probeL2_of_live {cfg : Config} {now : Nat} {key : String} {s : CacheState}
    {e : CacheEntry} (h : mapGet s.l2 key = some e)
    (hx : CacheService.isExpired now e = false) :
    probeL2 cfg now key s =
      hitPath cfg now key e true { s with l1 := mapSet s.l1 key e } := by
  unfold probeL2
  rw [h]
  dsimp only
  rw [if_neg (by simp [hx])]

theorem hitPath_uncompressed {cfg : Config} {now : Nat} {key : String} {e : CacheEntry}
    {b : Bool} {s : CacheState} (h : e.compressed = false) :
    hitPath cfg now key e b s = (e.value, writeTouched now key e b (bumpHits s)) := by
  unfold hitPath
  rw [if_neg (by simp [h])]

theorem hitPath_decomp_ok {cfg : Config} {now : Nat} {key : String} {e : CacheEntry}
    {b : Bool} {s : CacheState} {w : JVal} (h : e.compressed = true)
    (hen : cfg.enableCompression = true) (hd : CacheService.decompress e.value = some w) :
    hitPath cfg now key e b s =
      (w, writeTouched now key e b (bumpDecompressions (bumpHits s))) := by
  unfold hitPath
  rw [if_pos (by simp [h, hen]), hd]

theorem hitPath_decomp_fail {cfg : Config} {now : Nat} {key : String} {e : CacheEntry}
    {b : Bool} {s : CacheState} (h : e.compressed = true)
    (hen : cfg.enableCompression = true) (hd : CacheService.decompress e.value = none) :
    hitPath cfg now key e b s = (JVal.jnull, (CacheService.delete key (bumpHits s)).2) := by
  unfold hitPath
  rw [if_pos (by simp [h, hen]), hd]

/-! ## Claim C1 — expiry behaviour of `get` -/

/-- **C1** (amended).  When every entry stored for `key` in either tier is
expired, `get` returns a miss (`null`) and increments `misses`; the key is
deleted from both tiers exactly when L2 held an (expired) entry for it — an
expired entry that sits only in L1, with no L2 entry, is left in place. -/
theorem c1_expired_get_miss_deletion (cfg : Config) (now : Nat) (key : String) (s : CacheState)
    (h1 : ∀ e, mapGet s.l1 key = some e → CacheService.isExpired now e = true)
    (h2 : ∀ e, mapGet s.l2 key = some e → CacheService.isExpired now e = true) :
    (CacheService.get cfg now key s).1 = JVal.jnull ∧
    ((CacheService.get cfg now key s).2).stats.misses = s.stats.misses + 1 ∧
    (mapHas s.l2 key = true →
      mapGet ((CacheService.get cfg now key s).2).l1 key = none ∧
      mapGet ((CacheService.get cfg now key s).2).l2 key = none) ∧
    (mapHas s.l2 key = false →
      ((CacheService.get cfg now key s).2).l1 = s.l1 ∧
      ((CacheService.get cfg now key s).2).l2 = s.l2) := by
  have hp2 : CacheService.get cfg now key s = probeL2 cfg now key s := by
    cases hl1 : mapGet s.l1 key with
    | none => exact get_eq_probeL2_of_l1_none hl1
    | some e1 => exact get_eq_probeL2_of_l1_expired hl1 (h1 e1 hl1)
  rw [hp2]
  cases hl2 : mapGet s.l2 key with
  | none =>
    rw [probeL2_of_none hl2]
    refine ⟨rfl, rfl, ?_, fun _ => ⟨rfl, rfl⟩⟩
    intro hhas
    rcases mapGet_some_of_has hhas with ⟨e, he⟩
    rw [he] at hl2
    exact absurd hl2 (by simp)
  | some e2 =>
    rw [probeL2_of_expired hl2 (h2 e2 hl2)]
    refine ⟨rfl, ?_, ?_, ?_⟩
    · dsimp only [CacheService.delete, bumpMisses]
      split <;> rfl
    · intro _
      exact ⟨mapGet_mapDel_self key s.l1, mapGet_mapDel_self key s.l2⟩
    · intro hf
      rw [mapHas_of_get_some hl2] at hf
      exact absurd hf (by simp)

/-- An expired entry for "k" (`expiresAt = 5`). -/
def entC1 : CacheEntry := ⟨JVal.jnum 7, false, 5, 0, 0, 0, "L1", []⟩

/-- State with the expired entry only in L1 and nothing in L2. -/
def stC1 : CacheState := ⟨[("k", entC1)], [], emptyStats⟩

/-- **C1** (counterexample).  At `now = 10` the entry is expired, the other
tier holds nothing, `get` misses — yet the key is still present in L1
afterwards, contradicting "k is absent from both L1 and L2". -/
theorem c1_expired_l1_only_survives :
    CacheService.isExpired 10 entC1 = true ∧
    mapGet stC1.l2 "k" = none ∧
    (CacheService.get defaultConfig 10 "k" stC1).1 = JVal.jnull ∧
    ((CacheService.get defaultConfig 10 "k" stC1).2).stats.misses = 1 ∧
    mapHas ((CacheService.get defaultConfig 10 "k" stC1).2).l1 "k" = true :=
  ⟨by decide, rfl, rfl, by decide, by decide⟩

/-- Witness for C1: the amended theorem applied at the concrete expired
state. -/
theorem c1_expired_get_miss_deletion_witness :
    (CacheService.get defaultConfig 10 "k" stC1).1 = JVal.jnull ∧
    ((CacheService.get defaultConfig 10 "k" stC1).2).stats.misses = stC1.stats.misses + 1 ∧
    (mapHas stC1.l2 "k" = true →
      mapGet ((CacheService.get defaultConfig 10 "k" stC1).2).l1 "k" = none ∧
      mapGet ((CacheService.get defaultConfig 10 "k" stC1).2).l2 "k" = none) ∧
    (mapHas stC1.l2 "k" = false →
      ((CacheService.get defaultConfig 10 "k" stC1).2).l1 = stC1.l1 ∧
      ((CacheService.get defaultConfig 10 "k" stC1).2).l2 = stC1.l2) :=
  c1_expired_get_miss_deletion defaultConfig 10 "k" stC1
    (fun e he => by
      rw [show mapGet stC1.l1 "k" = some entC1 from rfl] at he
      injection he with hh
      rw [← hh]
      decide)
    (fun e he => by
      rw [show mapGet stC1.l2 "k" = none from rfl] at he
      exact Option.noConfusion he)

/-! ## Claim C5 — decompression failure in `get` -/

/-- **C5** (amended).  When `get` finds a live entry marked `compressed` in L1
and decoding fails, it returns a miss (`null`), deletes the key from both
tiers and propagates no error — but the lookup was already counted as a hit
(`hits` is incremented before decoding, `misses` is unchanged). -/
theorem c5_decompression_failure_behavior (cfg : Config) (now : Nat) (key : String)
    (s : CacheState) (e : CacheEntry)
    (hfound : mapGet s.l1 key = some e) (hlive : CacheService.isExpired now e = false)
    (hcomp : e.compressed = true) (hen : cfg.enableCompression = true)
    (hfail : CacheService.decompress e.value = none) :
    (CacheService.get cfg now key s).1 = JVal.jnull ∧
    mapGet ((CacheService.get cfg now key s).2).l1 key = none ∧
    mapGet ((CacheService.get cfg now key s).2).l2 key = none ∧
    ((CacheService.get cfg now key s).2).stats.hits = s.stats.hits + 1 ∧
    ((CacheService.get cfg now key s).2).stats.misses = s.stats.misses := by
  rw [get_eq_hitPath_of_l1_live hfound hlive, hitPath_decomp_fail hcomp hen hfail]
  refine ⟨rfl, mapGet_mapDel_self key s.l1, mapGet_mapDel_self key s.l2, ?_, ?_⟩
  · dsimp only [CacheService.delete, bumpHits]
    split <;> rfl
  · dsimp only [CacheService.delete, bumpHits]
    split <;> rfl

/-- A live entry marked compressed whose stored payload `"x"` is not valid
JSON, so the decode step fails. -/
def entC5 : CacheEntry := ⟨JVal.jstr "x", true, 1000, 0, 0, 0, "L1", []⟩

def stC5 : CacheState := ⟨[("k", entC5)], [], emptyStats⟩

/-- **C5** (counterexample).  On the decode failure the code has already run
`this.stats.hits++`: the lookup is counted as a hit (`hits = 1`), not as a
miss (`misses = 0`), contradicting "counts the lookup as a miss (not as a
hit)". -/
theorem c5_decompression_failure_counts_hit :
    entC5.compressed = true ∧
    CacheService.isExpired 0 entC5 = false ∧
    CacheService.decompress entC5.value = none ∧
    (CacheService.get defaultConfig 0 "k" stC5).1 = JVal.jnull ∧
    ((CacheService.get defaultConfig 0 "k" stC5).2).stats.hits = 1 ∧
    ((CacheService.get defaultConfig 0 "k" stC5).2).stats.misses = 0 ∧
    mapGet ((CacheService.get defaultConfig 0 "k" stC5).2).l1 "k" = none :=
  ⟨by decide, by decide, rfl, rfl, by decide, by decide, rfl⟩

/-- Witness for C5: the amended theorem applied at the corrupt-entry state. -/
theorem c5_decompression_failure_behavior_witness :
    (CacheService.get defaultConfig 0 "k" stC5).1 = JVal.jnull ∧
    mapGet ((CacheService.get defaultConfig 0 "k" stC5).2).l1 "k" = none ∧
    mapGet ((CacheService.get defaultConfig 0 "k" stC5).2).l2 "k" = none ∧
    ((CacheService.get defaultConfig 0 "k" stC5).2).stats.hits = stC5.stats.hits + 1 ∧
    ((CacheService.get defaultConfig 0 "k" stC5).2).stats.misses = stC5.stats.misses :=
  c5_decompression_failure_behavior defaultConfig 0 "k" stC5 entC5 rfl (by decide) (by decide)
    (by decide) rfl

/-! ## Claim C7 — `clear()` -/

/-- **C7** (amended).  `clear()` empties both tiers and adds the current value
of the cumulative `sets` counter (not the outstanding entry count) to
`deletes`, leaving `hits`, `misses` and `sets` unchanged. -/
theorem c7_clear_behavior (s : CacheState) :
    (CacheService.clear s).l1 = [] ∧ (CacheService.clear s).l2 = [] ∧
    (CacheService.clear s).stats.deletes = s.stats.deletes + s.stats.sets ∧
    (CacheService.clear s).stats.hits = s.stats.hits ∧
    (CacheService.clear s).stats.misses = s.stats.misses ∧
    (CacheService.clear s).stats.sets = s.stats.sets :=
  ⟨rfl, rfl, rfl, rfl, rfl, rfl⟩

/-- Two `set`s of the same key: one outstanding entry, `sets = 2`. -/
def stC7 : CacheState :=
  (CacheService.set defaultConfig 0 "k" (JVal.jnum 1) none defaultSetOptions
    ((CacheService.set defaultConfig 0 "k" (JVal.jnum 1) none defaultSetOptions emptyState).1)).1

/-- **C7** (counterexample).  After setting the same key twice, one entry is
outstanding across the tiers, yet `clear()` increases `deletes` by 2 (the
`sets` counter), not by 1 — contradicting "by exactly the number of entries
present across the two tiers". -/
theorem c7_clear_folds_sets_not_entry_count :
    mapSize stC7.l1 + mapSize stC7.l2 = 1 ∧
    stC7.stats.sets = 2 ∧
    (CacheService.clear stC7).stats.deletes = stC7.stats.deletes + 2 ∧
    (2 : Nat) ≠ 1 :=
  ⟨by decide, by decide, by decide, by decide⟩

/-! ## Claim C9 — hit rate reported by `getStats` -/

/-- **C9** (amended).  `getStats().performance.hitRate` is a string: the
value `hits / (hits + misses) * 100` rendered by `toFixed(2)` with a `%`
appended, and the string `"0%"` when the denominator is zero; after 3 hits
and 1 miss it is `"75.00%"`. -/
theorem c9_hit_rate_formula (now : Nat) (s : CacheState) :
    (s.stats.hits + s.stats.misses = 0 →
      (CacheService.getStats now s).performance.hitRate = "0%") ∧
    (0 < s.stats.hits + s.stats.misses →
      (CacheService.getStats now s).performance.hitRate =
        (let r := (200 * (s.stats.hits * 100) + (s.stats.hits + s.stats.misses)) /
            (2 * (s.stats.hits + s.stats.misses))
         toString (r / 100) ++ "." ++ pad2 (r % 100) ++ "%")) ∧
    (s.stats.hits = 3 → s.stats.misses = 1 →
      (CacheService.getStats now s).performance.hitRate = "75.00%") := by
  refine ⟨?_, ?_, ?_⟩
  · intro h0
    unfold CacheService.getStats
    rw [if_neg (by omega)]
  · intro hpos
    unfold CacheService.getStats
    rw [if_pos hpos]
    rfl
  · intro h3 h1
    unfold CacheService.getStats
    rw [h3, h1]
    rw [if_pos (by omega)]
    rfl

def stC9 : CacheState := ⟨[], [], ⟨3, 1, 0, 0, 0, 0⟩⟩

/-- **C9** (counterexample).  After 3 hits and 1 miss the reported hit rate
is the string `"75.00%"`, not the number 75 under any rendering within
rounding. -/
theorem c9_hit_rate_is_percent_string :
    (CacheService.getStats 0 stC9).performance.hitRate = "75.00%" ∧
    ("75.00%" : String) ≠ "75" ∧ ("75.00%" : String) ≠ "75.00" ∧
    ("75.00%" : String) ≠ "75.0" :=
  ⟨by decide, by decide, by decide, by decide⟩

/-- Witness for C9: the formula theorem applied at the 3-hits-1-miss state. -/
theorem c9_hit_rate_formula_witness :
    (CacheService.getStats 0 stC9).performance.hitRate = "75.00%" ∧
    0 < stC9.stats.hits + stC9.stats.misses :=
  ⟨(c9_hit_rate_formula 0 stC9).2.2 rfl rfl, by decide⟩

/-! ## Stage lemmas for `set` -/

theorem l1_bumpSets (x : CacheState) : (bumpSets x).l1 = x.l1 := rfl

theorem l1_bumpCompressions (x : CacheState) : (bumpCompressions x).l1 = x.l1 := rfl

theorem setStage1_l1_cases (cfg : Config) (now : Nat) (s : CacheState) :
    (setStage1 cfg now s).l1 = s.l1 ∨ ((setStage1 cfg now s).l1).length < s.l1.length := by
  unfold setStage1
  split
  · exact evict_l1_cases now cfg.maxSize s.l1 s.l2
  · exact Or.inl rfl

theorem setStage1_l1_le (cfg : Config) (now : Nat) (s : CacheState)
    (h : mapSize s.l1 ≤ cfg.maxSize) :
    mapSize (setStage1 cfg now s).l1 ≤ cfg.maxSize := by
  rcases setStage1_l1_cases cfg now s with he | he
  · unfold mapSize
    rw [he]
    exact h
  · unfold mapSize at *
    omega

theorem setStore_l1_le (cfg : Config) (key : String) (item : CacheEntry)
    (opts : SetOptions) (x : CacheState) (hx : mapSize x.l1 ≤ cfg.maxSize) :
    mapSize (setStore cfg key item opts x).l1 ≤ cfg.maxSize := by
  unfold setStore
  split
  · exact hx
  · next hcond =>
    push_neg at hcond
    have h3 := length_mapSet_le x.l1 key item
    have h2 := hcond.2
    dsimp only
    unfold mapSize at *
    omega

theorem l2_bumpSets (x : CacheState) : (bumpSets x).l2 = x.l2 := rfl

theorem set_of_compressStep_none {cfg : Config} {opts : SetOptions} {v : JVal}
    (now : Nat) (key : String) (ttl : Option Nat) (s : CacheState)
    (hcs : compressStep cfg opts v = none) :
    CacheService.set cfg now key v ttl opts s = (setStage1 cfg now s, false) := by
  unfold CacheService.set
  rw [hcs]

theorem set_of_compressStep_some {cfg : Config} {opts : SetOptions} {v cv : JVal}
    {comp d : Bool} (now : Nat) (key : String) (ttl : Option Nat) (s : CacheState)
    (hcs : compressStep cfg opts v = some (cv, comp, d)) :
    CacheService.set cfg now key v ttl opts s =
      (bumpSets (setStore cfg key (mkItem cfg now cv comp ttl opts) opts
        (if d then bumpCompressions (setStage1 cfg now s) else setStage1 cfg now s)), true) := by
  unfold CacheService.set
  rw [hcs]

theorem setStore_stores (cfg : Config) (key : String) (item : CacheEntry)
    (opts : SetOptions) (x : CacheState) :
    mapGet (setStore cfg key item opts x).l1 key = some item ∨
    mapGet (setStore cfg key item opts x).l2 key = some item := by
  unfold setStore
  split
  · exact Or.inr (mapGet_mapSet_self _ key _)
  · exact Or.inl (mapGet_mapSet_self _ key _)

/-- `set` preserves the `l1.size ≤ maxSize` bound: at capacity the eviction
either removes an entry or no-ops, and in the no-op case the 80%-occupancy
tier selection routes the insertion to L2 anyway. -/
theorem set_preserves_l1_bound (cfg : Config) (now : Nat) (key : String) (v : JVal)
    (ttl : Option Nat) (opts : SetOptions) (s : CacheState)
    (h : mapSize s.l1 ≤ cfg.maxSize) :
    mapSize ((CacheService.set cfg now key v ttl opts s).1).l1 ≤ cfg.maxSize := by
  have hs1 := setStage1_l1_le cfg now s h
  unfold CacheService.set
  cases hcs : compressStep cfg opts v with
  | none =>
    exact hs1
  | some triple =>
    obtain ⟨cv, comp, d⟩ := triple
    dsimp only
    have hx : mapSize (if d = true then bumpCompressions (setStage1 cfg now s)
        else setStage1 cfg now s).l1 ≤ cfg.maxSize := by
      cases d
      · exact hs1
      · exact hs1
    exact setStore_l1_le cfg key (mkItem cfg now cv comp ttl opts) opts _ hx

/-! ## Claim C6 — serialization failure in `set` -/

/-- **C6** (amended).  `set` propagates a failure exactly when compression is
enabled (globally and per-call) and serializing the value fails — the
serialized-size computation sits outside the `try`/`catch`, so that failure
escapes and nothing is stored.  When serialization succeeds with a size not
above the threshold (or compression is off), `set` completes normally and
stores the raw value with `compressed = false`. -/
theorem c6_set_serialization_failure (cfg : Config) (now : Nat) (key : String) (v : JVal)
    (ttl : Option Nat) (opts : SetOptions) (s : CacheState) :
    ((CacheService.set cfg now key v ttl opts s).2 = false ↔
      (cfg.enableCompression = true ∧ opts.compress ≠ some false ∧ stringifyJson v = none)) ∧
    ((cfg.enableCompression = false ∨ opts.compress = some false ∨
        (∃ str, stringifyJson v = some str ∧ ¬ str.length > cfg.compressionThreshold)) →
      (CacheService.set cfg now key v ttl opts s).2 = true ∧
      ∃ e, (mapGet ((CacheService.set cfg now key v ttl opts s).1).l1 key = some e ∨
            mapGet ((CacheService.set cfg now key v ttl opts s).1).l2 key = some e) ∧
           e.value = v ∧ e.compressed = false) := by
  constructor
  · constructor
    · intro hfl
      cases hcs : compressStep cfg opts v with
      | some triple =>
        obtain ⟨cv, comp, d⟩ := triple
        rw [set_of_compressStep_some now key ttl s hcs] at hfl
        exact absurd hfl (by simp)
      | none =>
        unfold compressStep at hcs
        by_cases hc : cfg.enableCompression = true ∧ opts.compress ≠ some false
        · rw [if_pos hc] at hcs
          cases hs : stringifyJson v with
          | none => exact ⟨hc.1, hc.2, rfl⟩
          | some str =>
            rw [hs] at hcs
            dsimp only at hcs
            split at hcs <;> exact absurd hcs (by simp)
        · rw [if_neg hc] at hcs
          exact absurd hcs (by simp)
    · intro ⟨hen, hoc, hsf⟩
      have hcs : compressStep cfg opts v = none := by
        unfold compressStep
        rw [if_pos ⟨hen, hoc⟩, hsf]
      rw [set_of_compressStep_none now key ttl s hcs]
  · intro hyp
    have hcs : compressStep cfg opts v = some (v, false, false) := by
      unfold compressStep
      by_cases hc : cfg.enableCompression = true ∧ opts.compress ≠ some false
      · rcases hyp with hen | hoc | ⟨str, hstr, hth⟩
        · exact absurd hc.1 (by rw [hen]; simp)
        · exact absurd hc.2 (by rw [hoc]; simp)
        · rw [if_pos hc, hstr]
          dsimp only
          rw [if_neg hth]
      · rw [if_neg hc]
    rw [set_of_compressStep_some now key ttl s hcs]
    have hifd : (if (false : Bool) then bumpCompressions (setStage1 cfg now s)
        else setStage1 cfg now s) = setStage1 cfg now s := by simp
    rw [hifd]
    refine ⟨rfl, mkItem cfg now v false ttl opts, ?_, rfl, rfl⟩
    simp only [l1_bumpSets, l2_bumpSets]
    exact setStore_stores cfg key (mkItem cfg now v false ttl opts) opts (setStage1 cfg now s)

/-- **C6** (counterexample).  Storing the JS value `undefined` with default
options: `JSON.stringify(value).length` throws before the `try`, `set` does
not complete, nothing is stored and no counter moves — contradicting "set
never propagates a Codec/serialization failure". -/
theorem c6_size_computation_throws :
    stringifyJson JVal.jundef = none ∧
    (CacheService.set defaultConfig 0 "k" JVal.jundef none defaultSetOptions emptyState).2
      = false ∧
    mapGet ((CacheService.set defaultConfig 0 "k" JVal.jundef none defaultSetOptions
      emptyState).1).l1 "k" = none ∧
    mapGet ((CacheService.set defaultConfig 0 "k" JVal.jundef none defaultSetOptions
      emptyState).1).l2 "k" = none ∧
    ((CacheService.set defaultConfig 0 "k" JVal.jundef none defaultSetOptions
      emptyState).1).stats.sets = 0 :=
  ⟨rfl, by decide, rfl, rfl, by decide⟩

/-- Witness for C6: a small value is stored raw and uncompressed. -/
theorem c6_set_serialization_failure_witness :
    (CacheService.set defaultConfig 0 "k" (JVal.jnum 1) none defaultSetOptions emptyState).2
      = true ∧
    ∃ e, (mapGet ((CacheService.set defaultConfig 0 "k" (JVal.jnum 1) none defaultSetOptions
            emptyState).1).l1 "k" = some e ∨
          mapGet ((CacheService.set defaultConfig 0 "k" (JVal.jnum 1) none defaultSetOptions
            emptyState).1).l2 "k" = some e) ∧
         e.value = JVal.jnum 1 ∧ e.compressed = false :=
  (c6_set_serialization_failure defaultConfig 0 "k" (JVal.jnum 1) none defaultSetOptions
    emptyState).2 (Or.inr (Or.inr ⟨"1", rfl, by decide⟩))

/-! ## Claim C3 — the `l1.size ≤ maxSize` bound -/

/-- **C3** (amended).  `l1.size ≤ maxSize` is preserved by `set`, `delete`,
`invalidatePattern`, `invalidateByTags`, `clear`, `warmCache` and `cleanup` —
but not by a `get` that promotes an entry from L2 into a full L1: the
promotion performs no size check (see the counterexample). -/
theorem c3_l1_bound_preservation :
    (∀ cfg now key v ttl opts s, mapSize s.l1 ≤ cfg.maxSize →
       mapSize ((CacheService.set cfg now key v ttl opts s).1).l1 ≤ cfg.maxSize) ∧
    (∀ (key : String) (s : CacheState) (m : Nat), mapSize s.l1 ≤ m →
       mapSize ((CacheService.delete key s).2).l1 ≤ m) ∧
    (∀ (pat : String) (s : CacheState) (m : Nat), mapSize s.l1 ≤ m →
       mapSize ((CacheService.invalidatePattern pat s).2).l1 ≤ m) ∧
    (∀ (tags : List String) (s : CacheState) (m : Nat), mapSize s.l1 ≤ m →
       mapSize ((CacheService.invalidateByTags tags s).2).l1 ≤ m) ∧
    (∀ (s : CacheState) (m : Nat), mapSize (CacheService.clear s).l1 ≤ m) ∧
    (∀ cfg now items s, mapSize s.l1 ≤ cfg.maxSize →
       mapSize ((CacheService.warmCache cfg now items s).1).l1 ≤ cfg.maxSize) ∧
    (∀ cfg now s, mapSize s.l1 ≤ cfg.maxSize →
       mapSize (CacheService.cleanup cfg now s).l1 ≤ cfg.maxSize) := by
  refine ⟨set_preserves_l1_bound, ?_, ?_, ?_, ?_, ?_, ?_⟩
  · intro key s m h
    have := length_mapDel_le s.l1 key
    dsimp only [CacheService.delete]
    unfold mapSize at *
    omega
  · intro pat s m h
    have : (s.l1.filter (fun p => !(matchesPattern pat p.1))).length ≤ s.l1.length :=
      List.length_filter_le _ _
    dsimp only [CacheService.invalidatePattern]
    unfold mapSize at *
    omega
  · intro tags s m h
    have : (s.l1.filter
        (fun p => !(p.2.tags.any (fun t => tags.contains t)))).length ≤ s.l1.length :=
      List.length_filter_le _ _
    dsimp only [CacheService.invalidateByTags]
    unfold mapSize at *
    omega
  · intro s m
    simp [CacheService.clear, mapSize]
  · intro cfg now items
    induction items with
    | nil => intro s h; exact h
    | cons it rest ih =>
      intro s h
      unfold CacheService.warmCache
      dsimp only
      split
      · exact ih _ (set_preserves_l1_bound cfg now it.key it.value it.ttl it.options s h)
      · exact set_preserves_l1_bound cfg now it.key it.value it.ttl it.options s h
  · intro cfg now s h
    unfold CacheService.cleanup
    have hf : (s.l1.filter (fun p => !(CacheService.isExpired now p.2))).length
        ≤ s.l1.length := List.length_filter_le _ _
    dsimp only
    split
    · rcases evict_l1_cases now cfg.maxSize
          (s.l1.filter (fun p => !(CacheService.isExpired now p.2)))
          (s.l2.filter (fun p => !(CacheService.isExpired now p.2))) with he | he
      · dsimp only
        unfold mapSize at *
        rw [he]
        omega
      · dsimp only
        unfold mapSize at *
        omega
    · dsimp only
      unfold mapSize at *
      omega

/-- Constructor options `{ maxSize: 2 }`. -/
def cfgM2 : Config := mkConfig ⟨none, some 2, none, none, none⟩

/-- Three sets at increasing times: L1 = ("b","c"), L2 = ("a"). -/
def stC3 : CacheState :=
  let s1 := (CacheService.set cfgM2 10 "a" (JVal.jnum 1) none defaultSetOptions emptyState).1
  let s2 := (CacheService.set cfgM2 20 "b" (JVal.jnum 2) none defaultSetOptions s1).1
  (CacheService.set cfgM2 30 "c" (JVal.jnum 3) none defaultSetOptions s2).1

/-- **C3** (counterexample).  With `maxSize = 2` and L1 full, `get("a")`
promotes the live L2 entry into L1 with no size check: afterwards
`l1.size = 3 > maxSize`, contradicting the hard invariant "after every
public operation, including a promoting get, l1.size ≤ maxSize". -/
theorem c3_promotion_exceeds_bound :
    cfgM2.maxSize = 2 ∧
    mapSize stC3.l1 = 2 ∧
    mapHas stC3.l2 "a" = true ∧
    mapSize ((CacheService.get cfgM2 40 "a" stC3).2).l1 = 3 :=
  ⟨by decide, by decide, by decide, by decide⟩

/-- Witness for C3: the preservation conjunct applied at a concrete state. -/
theorem c3_l1_bound_preservation_witness :
    mapSize ((CacheService.set defaultConfig 0 "k" (JVal.jnum 1) none defaultSetOptions
      emptyState).1).l1 ≤ defaultConfig.maxSize :=
  c3_l1_bound_preservation.1 defaultConfig 0 "k" (JVal.jnum 1) none defaultSetOptions
    emptyState (by decide)

/-! ## More stage lemmas (ite-projections, tier selection, `set` counters) -/

theorem l1_ite_bumpC (d : Bool) (x : CacheState) :
    (if d then bumpCompressions x else x).l1 = x.l1 := by
  cases d <;> rfl

theorem l2_ite_bumpC (d : Bool) (x : CacheState) :
    (if d then bumpCompressions x else x).l2 = x.l2 := by
  cases d <;> rfl

theorem stats_sets_ite_bumpC (d : Bool) (x : CacheState) :
    (if d then bumpCompressions x else x).stats.sets = x.stats.sets := by
  cases d <;> rfl

theorem stats_setStage1 (cfg : Config) (now : Nat) (s : CacheState) :
    (setStage1 cfg now s).stats = s.stats := by
  unfold setStage1
  split <;> rfl

theorem stats_setStore (cfg : Config) (key : String) (item : CacheEntry)
    (opts : SetOptions) (x : CacheState) :
    (setStore cfg key item opts x).stats = x.stats := by
  unfold setStore
  split <;> rfl

theorem setStore_pos {cfg : Config} {opts : SetOptions} {x : CacheState}
    (key : String) (item : CacheEntry)
    (h : opts.level = some "L2" ∨ 5 * mapSize x.l1 ≥ 4 * cfg.maxSize) :
    setStore cfg key item opts x = { x with l2 := mapSet x.l2 key item } := by
  unfold setStore
  rw [if_pos h]

theorem setStore_neg {cfg : Config} {opts : SetOptions} {x : CacheState}
    (key : String) (item : CacheEntry)
    (h : ¬ (opts.level = some "L2" ∨ 5 * mapSize x.l1 ≥ 4 * cfg.maxSize)) :
    setStore cfg key item opts x = { x with l1 := mapSet x.l1 key item } := by
  unfold setStore
  rw [if_neg h]

theorem stats_writeTouched (now : Nat) (key : String) (e : CacheEntry) (b : Bool)
    (s : CacheState) : (writeTouched now key e b s).stats = s.stats := rfl

/-- A completed `set` increments the `sets` counter by one. -/
theorem set_ok_sets {cfg : Config} {now : Nat} {key : String} {v : JVal} {ttl : Option Nat}
    {opts : SetOptions} {s : CacheState}
    (hok : (CacheService.set cfg now key v ttl opts s).2 = true) :
    ((CacheService.set cfg now key v ttl opts s).1).stats.sets = s.stats.sets + 1 := by
  cases hcs : compressStep cfg opts v with
  | none =>
    rw [set_of_compressStep_none now key ttl s hcs] at hok
    exact absurd hok (by simp)
  | some triple =>
    obtain ⟨cv, comp, d⟩ := triple
    rw [set_of_compressStep_some now key ttl s hcs]
    show (bumpSets _).stats.sets = _
    have h1 : ∀ x : CacheState, (bumpSets x).stats.sets = x.stats.sets + 1 := fun _ => rfl
    rw [h1, stats_setStore, stats_sets_ite_bumpC, stats_setStage1]

/-- `hitPath` when decompression is not attempted (raw entry, or compression
globally disabled). -/
theorem hitPath_plain {cfg : Config} {now : Nat} {key : String} {e : CacheEntry}
    {b : Bool} {s : CacheState} (h : (e.compressed && cfg.enableCompression) = false) :
    hitPath cfg now key e b s = (e.value, writeTouched now key e b (bumpHits s)) := by
  unfold hitPath
  rw [if_neg (by simp [h])]

/-! ## Claim C4 — one live entry per key across the tiers -/

/-- **C4** (amended, positive part).  A promotion (L1 empty or expired for
`key`, L2 live) leaves the two tiers holding the *same* entry for `key` —
one logical entry in two places (and on a decode failure both copies are
removed, so the tiers still agree). -/
theorem c4_promotion_copies_agree (cfg : Config) (now : Nat) (key : String) (s : CacheState)
    (e2 : CacheEntry)
    (hl1 : ∀ e, mapGet s.l1 key = some e → CacheService.isExpired now e = true)
    (hl2 : mapGet s.l2 key = some e2) (hlive : CacheService.isExpired now e2 = false) :
    mapGet ((CacheService.get cfg now key s).2).l1 key =
      mapGet ((CacheService.get cfg now key s).2).l2 key := by
  have hp2 : CacheService.get cfg now key s = probeL2 cfg now key s := by
    cases hg : mapGet s.l1 key with
    | none => exact get_eq_probeL2_of_l1_none hg
    | some e1 => exact get_eq_probeL2_of_l1_expired hg (hl1 e1 hg)
  rw [hp2, probeL2_of_live hl2 hlive]
  by_cases hc : (e2.compressed && cfg.enableCompression) = true
  · cases hd : CacheService.decompress e2.value with
    | some w =>
      rw [hitPath_decomp_ok (by revert hc; cases e2.compressed <;> simp)
        (by revert hc; cases cfg.enableCompression <;> simp) hd]
      unfold writeTouched
      dsimp only
      rw [if_pos rfl]
      rw [mapGet_mapSet_self, mapGet_mapSet_self]
    | none =>
      rw [hitPath_decomp_fail (by revert hc; cases e2.compressed <;> simp)
        (by revert hc; cases cfg.enableCompression <;> simp) hd]
      dsimp only [CacheService.delete]
      rw [mapGet_mapDel_self, mapGet_mapDel_self]
  · rw [hitPath_plain (Bool.eq_false_iff.2 hc)]
    unfold writeTouched
    dsimp only
    rw [if_pos rfl]
    rw [mapGet_mapSet_self, mapGet_mapSet_self]

/-- Constructor options `{ maxSize: 5 }`. -/
def cfgM5 : Config := mkConfig ⟨none, some 5, none, none, none⟩

/-- Four live entries in L1 (80% of `maxSize = 5` is reached). -/
def stC4pre : CacheState :=
  let s1 := (CacheService.set cfgM5 0 "k" (JVal.jnum 1) none defaultSetOptions emptyState).1
  let s2 := (CacheService.set cfgM5 0 "a" (JVal.jnum 0) none defaultSetOptions s1).1
  let s3 := (CacheService.set cfgM5 0 "b" (JVal.jnum 0) none defaultSetOptions s2).1
  (CacheService.set cfgM5 0 "c" (JVal.jnum 0) none defaultSetOptions s3).1

/-- `set("k", 2)` lands in L2 because L1 occupancy is at 80%, while the older
live `"k"` entry stays in L1. -/
def stC4 : CacheState :=
  (CacheService.set cfgM5 0 "k" (JVal.jnum 2) none defaultSetOptions stC4pre).1

/-- **C4** (counterexample).  After `set("k", v2)` targets L2 while an older
live entry for `"k"` sits in L1, the two tiers hold two distinct live entries
for the same key — no promotion involved — contradicting "a key resolves to
at most one live entry across the two tiers". -/
theorem c4_two_live_entries_for_one_key :
    mapGet stC4.l1 "k" = some (mkItem cfgM5 0 (JVal.jnum 1) false none defaultSetOptions) ∧
    mapGet stC4.l2 "k" = some (mkItem cfgM5 0 (JVal.jnum 2) false none defaultSetOptions) ∧
    CacheService.isExpired 0 (mkItem cfgM5 0 (JVal.jnum 1) false none defaultSetOptions)
      = false ∧
    CacheService.isExpired 0 (mkItem cfgM5 0 (JVal.jnum 2) false none defaultSetOptions)
      = false ∧
    (mkItem cfgM5 0 (JVal.jnum 1) false none defaultSetOptions).value = JVal.jnum 1 ∧
    (mkItem cfgM5 0 (JVal.jnum 2) false none defaultSetOptions).value = JVal.jnum 2 ∧
    JVal.jnum 1 ≠ JVal.jnum 2 :=
  ⟨rfl, rfl, by decide, by decide, rfl, rfl, by simp⟩

/-- A live uncompressed entry sitting only in L2. -/
def entC4 : CacheEntry := ⟨JVal.jnum 9, false, 1000, 0, 0, 0, "L2", []⟩

def stC4w : CacheState := ⟨[], [("k", entC4)], emptyStats⟩

/-- Witness for C4: the promotion-agreement theorem at a concrete state. -/
theorem c4_promotion_copies_agree_witness :
    mapGet ((CacheService.get defaultConfig 0 "k" stC4w).2).l1 "k" =
      mapGet ((CacheService.get defaultConfig 0 "k" stC4w).2).l2 "k" :=
  c4_promotion_copies_agree defaultConfig 0 "k" stC4w entC4
    (fun e he => by
      rw [show mapGet stC4w.l1 "k" = none from rfl] at he
      exact Option.noConfusion he)
    rfl (by decide)

/-! ## Claim C2 — `set` / `get` round-trip -/

theorem setStage1_get_cases (cfg : Config) (now : Nat) (s : CacheState) (key : String) :
    mapGet (setStage1 cfg now s).l1 key = mapGet s.l1 key ∨
    mapGet (setStage1 cfg now s).l1 key = none := by
  unfold setStage1
  split
  · exact evict_get_cases now cfg.maxSize s.l1 s.l2 key
  · exact Or.inl rfl

/-- **C2** (amended).  `set(k, v, t)` followed immediately by `get(k)` before
`t` elapses returns a value deep-equal to `v`, whether or not the value was
compressed at insertion, **provided** (a) the `set` completed (serialization
did not throw, cf. C6), (b) `v` survives the JSON round-trip, and (c) any
entry for `k` already sitting in L1 is expired by lookup time — without (c)
the `set` can land in L2 while a live older L1 entry for `k` shadows it (see
the counterexample). -/
theorem c2_set_get_roundtrip (cfg : Config) (now now2 : Nat) (key : String) (v : JVal)
    (ttl : Option Nat) (s : CacheState)
    (hok : (CacheService.set cfg now key v ttl defaultSetOptions s).2 = true)
    (hnow : now2 ≤ now + effTTL cfg ttl)
    (hrt : parseJson (renderJson v) = some v)
    (hstale : ∀ e, mapGet s.l1 key = some e → CacheService.isExpired now2 e = true) :
    (CacheService.get cfg now2 key
      ((CacheService.set cfg now key v ttl defaultSetOptions s).1)).1 = v := by
  cases hcs : compressStep cfg defaultSetOptions v with
  | none =>
    rw [set_of_compressStep_none now key ttl s hcs] at hok
    exact absurd hok (by simp)
  | some triple =>
    obtain ⟨cv, comp, d⟩ := triple
    have hspec := compressStep_spec hcs
    have hexp : CacheService.isExpired now2 (mkItem cfg now cv comp ttl defaultSetOptions)
        = false := by
      unfold CacheService.isExpired mkItem
      dsimp only
      simp only [decide_eq_false_iff_not]
      omega
    have hval : ∀ (b : Bool) (t : CacheState),
        (hitPath cfg now2 key (mkItem cfg now cv comp ttl defaultSetOptions) b t).1 = v := by
      intro b t
      rcases hspec with ⟨h1, h2⟩ | ⟨h1, hen, h3⟩
      · rw [hitPath_plain (by simp [mkItem, h1])]
        exact h2
      · have hd : CacheService.decompress
            (mkItem cfg now cv comp ttl defaultSetOptions).value = some v := by
          show CacheService.decompress cv = some v
          rw [h3]
          exact hrt
        rw [hitPath_decomp_ok h1 hen hd]
    rw [set_of_compressStep_some now key ttl s hcs]
    dsimp only
    obtain ⟨x, hx, hxl1⟩ : ∃ x : CacheState,
        (if d then bumpCompressions (setStage1 cfg now s) else setStage1 cfg now s) = x ∧
        x.l1 = (setStage1 cfg now s).l1 :=
      ⟨_, rfl, l1_ite_bumpC d _⟩
    rw [hx]
    by_cases ht : defaultSetOptions.level = some "L2" ∨ 5 * mapSize x.l1 ≥ 4 * cfg.maxSize
    · rw [setStore_pos key _ ht]
      obtain ⟨S, hS, hSl1, hSl2⟩ : ∃ S : CacheState,
          bumpSets { x with
            l2 := mapSet x.l2 key (mkItem cfg now cv comp ttl defaultSetOptions) } = S ∧
          S.l1 = x.l1 ∧
          mapGet S.l2 key = some (mkItem cfg now cv comp ttl defaultSetOptions) :=
        ⟨_, rfl, rfl, mapGet_mapSet_self _ _ _⟩
      rw [hS]
      cases hm : mapGet S.l1 key with
      | none =>
        rw [get_eq_probeL2_of_l1_none hm, probeL2_of_live hSl2 hexp]
        exact hval true _
      | some e =>
        have hse : mapGet s.l1 key = some e := by
          rcases setStage1_get_cases cfg now s key with hq | hq
          · rw [hSl1, hxl1, hq] at hm
            exact hm
          · rw [hSl1, hxl1, hq] at hm
            exact absurd hm (by simp)
        rw [get_eq_probeL2_of_l1_expired hm (hstale e hse), probeL2_of_live hSl2 hexp]
        exact hval true _
    · rw [setStore_neg key _ ht]
      obtain ⟨S, hS, hSl1get⟩ : ∃ S : CacheState,
          bumpSets { x with
            l1 := mapSet x.l1 key (mkItem cfg now cv comp ttl defaultSetOptions) } = S ∧
          mapGet S.l1 key = some (mkItem cfg now cv comp ttl defaultSetOptions) :=
        ⟨_, rfl, mapGet_mapSet_self _ _ _⟩
      rw [hS, get_eq_hitPath_of_l1_live hSl1get hexp]
      exact hval false _

/-- **C2** (counterexample).  With four live L1 entries and `maxSize = 5`
(80% occupancy), `set("k", 2)` completes but targets L2; the immediately
following `get("k")` (same instant, no intervening operation on "k") returns
the older live L1 value `1`, not `2`. -/
theorem c2_stale_l1_shadows_fresh_set :
    (CacheService.set cfgM5 0 "k" (JVal.jnum 2) none defaultSetOptions stC4pre).2 = true ∧
    (CacheService.get cfgM5 0 "k" stC4).1 = JVal.jnum 1 ∧
    JVal.jnum 1 ≠ JVal.jnum 2 :=
  ⟨by decide, rfl, by simp⟩

/-- Constructor options `{ compressionThreshold: 1 }`, so small values are
compressed too. -/
def cfgTh1 : Config := mkConfig ⟨none, none, none, none, some 1⟩

/-- Witness for C2, exercising the compressed path: threshold 1 forces the
value through `JSON.stringify`/`JSON.parse`. -/
theorem c2_set_get_roundtrip_witness :
    (CacheService.get cfgTh1 0 "k"
      ((CacheService.set cfgTh1 0 "k" (JVal.jnum 42) none defaultSetOptions
        emptyState).1)).1 = JVal.jnum 42 :=
  c2_set_get_roundtrip cfgTh1 0 0 "k" (JVal.jnum 42) none emptyState (by decide)
    (by decide) rfl
    (fun e he => by
      rw [show mapGet emptyState.l1 "k" = none from rfl] at he
      exact Option.noConfusion he)

/-! ## Claim C8 — LRU eviction -/

def entA (t : Nat) : CacheEntry := mkItem cfgM2 t (JVal.jnum 1) false none defaultSetOptions

def entB (t : Nat) : CacheEntry := mkItem cfgM2 t (JVal.jnum 2) false none defaultSetOptions

def entC (t : Nat) : CacheEntry := mkItem cfgM2 t (JVal.jnum 3) false none defaultSetOptions

/-- Three distinct keys inserted via `set` at times `t1`, `t2`, `t3` into a
`maxSize = 2` cache. -/
def evScenario (t1 t2 t3 : Nat) : CacheState :=
  let s1 := (CacheService.set cfgM2 t1 "a" (JVal.jnum 1) none defaultSetOptions emptyState).1
  let s2 := (CacheService.set cfgM2 t2 "b" (JVal.jnum 2) none defaultSetOptions s1).1
  (CacheService.set cfgM2 t3 "c" (JVal.jnum 3) none defaultSetOptions s2).1

theorem evScenario_two (t1 t2 : Nat) :
    (CacheService.set cfgM2 t2 "b" (JVal.jnum 2) none defaultSetOptions
      ((CacheService.set cfgM2 t1 "a" (JVal.jnum 1) none defaultSetOptions emptyState).1)).1
    = ⟨[("a", entA t1), ("b", entB t2)], [], ⟨0, 0, 2, 0, 0, 0⟩⟩ := rfl

theorem evict_scenario (t1 t2 t3 : Nat) (h13 : t1 < t3) (h21 : ¬ t2 < t1) :
    CacheService.evictLRU t3 cfgM2.maxSize [("a", entA t1), ("b", entB t2)] [] =
      ([("b", entB t2)], [("a", { entA t1 with level := "L2" })]) := by
  have hsel : lruSelect t3 [("a", entA t1), ("b", entB t2)] = (some "a", t1) := by
    unfold lruSelect
    simp only [List.foldl_cons, List.foldl_nil]
    dsimp only [entA, entB, mkItem]
    rw [if_pos h13]
    rw [if_neg h21]
  unfold CacheService.evictLRU
  rw [hsel]
  rfl

theorem evScenario_eq (t1 t2 t3 : Nat) (h12 : t1 < t2) (h23 : t2 < t3) :
    evScenario t1 t2 t3 =
      ⟨[("b", entB t2), ("c", entC t3)], [("a", { entA t1 with level := "L2" })],
        ⟨0, 0, 3, 0, 0, 0⟩⟩ := by
  unfold evScenario
  dsimp only
  rw [evScenario_two t1 t2]
  rw [set_of_compressStep_some t3 "c" none _
    (show compressStep cfgM2 defaultSetOptions (JVal.jnum 3)
      = some (JVal.jnum 3, false, false) from rfl)]
  dsimp only
  rw [if_neg (show ¬ ((false : Bool) = true) by simp)]
  unfold setStage1
  rw [if_pos (show mapSize
      ((⟨[("a", entA t1), ("b", entB t2)], [], ⟨0, 0, 2, 0, 0, 0⟩⟩ : CacheState).l1)
      ≥ cfgM2.maxSize from Nat.le_refl 2)]
  rw [evict_scenario t1 t2 t3 (lt_trans h12 h23) (by omega)]
  rfl

/-- The running fold of the LRU scan can only lower the candidate time, and
its result is a lower bound on every scanned entry's `lastAccessed`. -/
theorem lruFold_bounds :
    ∀ (l1 : CMap) (acc : Option String × Nat),
      (l1.foldl (fun acc p =>
        if p.2.lastAccessed < acc.2 then (some p.1, p.2.lastAccessed) else acc) acc).2
        ≤ acc.2 ∧
      ∀ p ∈ l1, (l1.foldl (fun acc p =>
        if p.2.lastAccessed < acc.2 then (some p.1, p.2.lastAccessed) else acc) acc).2
          ≤ p.2.lastAccessed := by
  intro l1
  induction l1 with
  | nil => exact fun acc => ⟨Nat.le_refl _, fun p hp => absurd hp (List.not_mem_nil p)⟩
  | cons q rest ih =>
    intro acc
    simp only [List.foldl_cons]
    by_cases hlt : q.2.lastAccessed < acc.2
    · rw [if_pos hlt]
      rcases ih (some q.1, q.2.lastAccessed) with ⟨h1, h2⟩
      refine ⟨le_trans h1 (le_of_lt hlt), ?_⟩
      intro p hp
      rcases List.mem_cons.1 hp with rfl | hp'
      · exact h1
      · exact h2 p hp'
    · rw [if_neg hlt]
      rcases ih acc with ⟨h1, h2⟩
      refine ⟨h1, ?_⟩
      intro p hp
      rcases List.mem_cons.1 hp with rfl | hp'
      · exact le_trans h1 (Nat.le_of_not_lt hlt)
      · exact h2 p hp'

/-- The LRU scan either leaves the seed untouched or lands exactly on some
scanned entry, whose `lastAccessed` is strictly below the seed time. -/
theorem lruFold_found :
    ∀ (l1 : CMap) (acc : Option String × Nat),
      l1.foldl (fun acc p =>
        if p.2.lastAccessed < acc.2 then (some p.1, p.2.lastAccessed) else acc) acc = acc ∨
      ∃ k e, (k, e) ∈ l1 ∧
        l1.foldl (fun acc p =>
          if p.2.lastAccessed < acc.2 then (some p.1, p.2.lastAccessed) else acc) acc
          = (some k, e.lastAccessed) ∧ e.lastAccessed < acc.2 := by
  intro l1
  induction l1 with
  | nil => exact fun acc => Or.inl rfl
  | cons q rest ih =>
    intro acc
    simp only [List.foldl_cons]
    by_cases hlt : q.2.lastAccessed < acc.2
    · rw [if_pos hlt]
      rcases ih (some q.1, q.2.lastAccessed) with h | ⟨k, e, hmem, heq, hlt2⟩
      · exact Or.inr ⟨q.1, q.2, List.mem_cons_self q rest, h, hlt⟩
      · exact Or.inr ⟨k, e, List.mem_cons_of_mem q hmem, heq, lt_trans hlt2 hlt⟩
    · rw [if_neg hlt]
      rcases ih acc with h | ⟨k, e, hmem, heq, hlt2⟩
      · exact Or.inl h
      · exact Or.inr ⟨k, e, List.mem_cons_of_mem q hmem, heq, hlt2⟩

/-- When the scan selects a key, that key's entry has the smallest
`lastAccessed` in L1 and it is strictly below the current time. -/
theorem lruSelect_spec {now : Nat} {l1 : CMap} {k : String} {t : Nat}
    (h : lruSelect now l1 = (some k, t)) :
    t < now ∧ (∃ e, (k, e) ∈ l1 ∧ e.lastAccessed = t) ∧
      ∀ p ∈ l1, t ≤ p.2.lastAccessed := by
  unfold lruSelect at h
  rcases lruFold_found l1 (none, now) with hc | ⟨k', e, hmem, heq, hlt⟩
  · rw [hc] at h
    exact absurd (congrArg Prod.fst h) (by simp)
  · rw [heq] at h
    simp only [Prod.mk.injEq, Option.some.injEq] at h
    obtain ⟨hk, ht⟩ := h
    subst hk
    refine ⟨?_, ⟨e, hmem, ht⟩, ?_⟩
    · rw [← ht]
      exact hlt
    · intro p hp
      have hb := (lruFold_bounds l1 (none, now)).2 p hp
      rw [heq] at hb
      rw [← ht]
      exact hb

/-- Conversely, whenever some L1 entry is strictly older than the current
time, the scan does select a key. -/
theorem lruSelect_progress {now : Nat} {l1 : CMap}
    (h : ∃ p ∈ l1, p.2.lastAccessed < now) :
    ∃ k t, lruSelect now l1 = (some k, t) := by
  obtain ⟨p, hp, hlt⟩ := h
  rcases lruFold_found l1 (none, now) with hc | ⟨k, e, _, heq, _⟩
  · have hb := (lruFold_bounds l1 (none, now)).2 p hp
    rw [hc] at hb
    exact absurd hlt (Nat.not_lt.2 hb)
  · exact ⟨k, e.lastAccessed, by unfold lruSelect; exact heq⟩

/-- Once a nonempty key is selected, `evictLRU` removes it from L1 and
reinserts it into L2 with `level = "L2"` exactly when `l2.size < maxSize`;
otherwise L2 is untouched and the entry is dropped permanently. -/
theorem evict_action (now m : Nat) (l1 l2 : CMap) (k : String) (t : Nat)
    (hsel : lruSelect now l1 = (some k, t)) (hk : k ≠ "") :
    (CacheService.evictLRU now m l1 l2).1 = mapDel l1 k ∧
    (mapSize l2 < m → ∃ item, mapGet l1 k = some item ∧
      (CacheService.evictLRU now m l1 l2).2 = mapSet l2 k { item with level := "L2" }) ∧
    (¬ mapSize l2 < m → (CacheService.evictLRU now m l1 l2).2 = l2) := by
  have hhas := lruSelect_some_has hsel
  have h0 : ¬ mapSize l1 = 0 := by
    cases l1 with
    | nil => simp [mapHas] at hhas
    | cons p rest => simp [mapSize]
  unfold CacheService.evictLRU
  rw [if_neg h0, hsel]
  dsimp only
  rw [if_pos hk]
  obtain ⟨item, hget⟩ := mapGet_some_of_has hhas
  rw [hget]
  dsimp only
  by_cases hcap : mapSize l2 < m
  · rw [if_pos hcap]
    exact ⟨rfl, fun _ => ⟨item, rfl, rfl⟩, fun hn => absurd hcap hn⟩
  · rw [if_neg hcap]
    exact ⟨rfl, fun hc => absurd hc hcap, fun _ => rfl⟩

/-- **C8** (amended).  `evictLRU` selects the L1 entry whose `lastAccessed`
is smallest and *strictly below the current time* (ties at or after `now`
are never selected, because `lruTime` starts at `Date.now()`): it is a no-op
on an empty L1 **and also** whenever no entry is strictly older than `now`,
while some strictly older entry always forces a selection.  A selected
nonempty key is removed from L1 and reinserted into L2 with `level = "L2"`
if and only if `l2.size < maxSize`, otherwise it is dropped and L2 is
untouched.  With `maxSize = 2` and strictly increasing insertion times, the
third `set` causes exactly one eviction: the oldest key leaves L1 for L2
(with `level = "L2"`), and L1 holds exactly the two newer keys. -/
theorem c8_evictLRU_behavior (t1 t2 t3 : Nat) (h12 : t1 < t2) (h23 : t2 < t3) :
    (∀ (now m : Nat) (l2 : CMap), CacheService.evictLRU now m [] l2 = ([], l2)) ∧
    (∀ (now m : Nat) (l1 l2 : CMap), (∀ p ∈ l1, ¬ p.2.lastAccessed < now) →
      CacheService.evictLRU now m l1 l2 = (l1, l2)) ∧
    (∀ (now : Nat) (l1 : CMap) (k : String) (t : Nat),
      lruSelect now l1 = (some k, t) →
      t < now ∧ (∃ e, (k, e) ∈ l1 ∧ e.lastAccessed = t) ∧
        ∀ p ∈ l1, t ≤ p.2.lastAccessed) ∧
    (∀ (now : Nat) (l1 : CMap), (∃ p ∈ l1, p.2.lastAccessed < now) →
      ∃ k t, lruSelect now l1 = (some k, t)) ∧
    (∀ (now m : Nat) (l1 l2 : CMap) (k : String) (t : Nat),
      lruSelect now l1 = (some k, t) → k ≠ "" →
      (CacheService.evictLRU now m l1 l2).1 = mapDel l1 k ∧
      (mapSize l2 < m → ∃ item, mapGet l1 k = some item ∧
        (CacheService.evictLRU now m l1 l2).2 = mapSet l2 k { item with level := "L2" }) ∧
      (¬ mapSize l2 < m → (CacheService.evictLRU now m l1 l2).2 = l2)) ∧
    mapGet (evScenario t1 t2 t3).l1 "a" = none ∧
    mapHas (evScenario t1 t2 t3).l1 "b" = true ∧
    mapHas (evScenario t1 t2 t3).l1 "c" = true ∧
    mapSize (evScenario t1 t2 t3).l1 = 2 ∧
    mapGet (evScenario t1 t2 t3).l2 "a" = some { entA t1 with level := "L2" } := by
  refine ⟨fun now m l2 => rfl, evict_noop_of_no_older,
    fun now l1 k t h => lruSelect_spec h,
    fun now l1 h => lruSelect_progress h,
    evict_action, ?_, ?_, ?_, ?_, ?_⟩ <;>
    rw [evScenario_eq t1 t2 t3 h12 h23] <;> rfl

/-- The same three insertions all happening at the same instant. -/
def stC8same : CacheState := evScenario 100 100 100

/-- **C8** (counterexample).  When the two resident entries were last
accessed at the very time of the third insertion, the strict comparison
against the `Date.now()` seed selects nothing: `evictLRU` is a no-op on a
non-empty L1 (contradicting "a no-op only when L1 is empty"), the third
insertion evicts nothing — both old keys stay in L1 — and the new key is
diverted to L2. -/
theorem c8_same_time_no_eviction :
    CacheService.evictLRU 100 cfgM2.maxSize [("a", entA 100), ("b", entB 100)] [] =
      ([("a", entA 100), ("b", entB 100)], []) ∧
    mapHas stC8same.l1 "a" = true ∧
    mapHas stC8same.l1 "b" = true ∧
    mapGet stC8same.l1 "c" = none ∧
    mapGet stC8same.l2 "c" = some (entC 100) ∧
    ([("a", entA 100), ("b", entB 100)] : CMap) ≠ [] :=
  ⟨rfl, by decide, by decide, rfl, rfl, by simp⟩

/-- Witness for C8: the eviction scenario at times 10 < 20 < 30, plus the
general action conjunct applied to the concrete two-entry L1 of that
scenario (L2 empty, capacity 2, key "a" selected at time 10). -/
theorem c8_evictLRU_behavior_witness :
    mapGet (evScenario 10 20 30).l1 "a" = none ∧
    mapGet (evScenario 10 20 30).l2 "a" = some { entA 10 with level := "L2" } ∧
    (CacheService.evictLRU 30 2 [("a", entA 10), ("b", entB 20)] []).1 =
      mapDel [("a", entA 10), ("b", entB 20)] "a" :=
  ⟨(c8_evictLRU_behavior 10 20 30 (by decide) (by decide)).2.2.2.2.2.1,
   (c8_evictLRU_behavior 10 20 30 (by decide) (by decide)).2.2.2.2.2.2.2.2.2,
   ((c8_evictLRU_behavior 10 20 30 (by decide) (by decide)).2.2.2.2.1 30 2
     [("a", entA 10), ("b", entB 20)] [] "a" 10 (by decide) (by decide)).1⟩

/-! ## Claim C10 — stored falsy payloads look like misses at the boundary -/

/-- A completed or thrown `set` never changes the `hits` counter. -/
theorem set_stats_hits (cfg : Config) (now : Nat) (key : String) (v : JVal)
    (ttl : Option Nat) (opts : SetOptions) (s : CacheState) :
    ((CacheService.set cfg now key v ttl opts s).1).stats.hits = s.stats.hits := by
  cases hcs : compressStep cfg opts v with
  | none =>
    rw [set_of_compressStep_none now key ttl s hcs]
    show (setStage1 cfg now s).stats.hits = s.stats.hits
    rw [stats_setStage1]
  | some triple =>
    obtain ⟨cv, comp, d⟩ := triple
    rw [set_of_compressStep_some now key ttl s hcs]
    show (bumpSets _).stats.hits = _
    have h1 : ∀ x : CacheState, (bumpSets x).stats.hits = x.stats.hits := fun _ => rfl
    have h2 : ∀ (b : Bool) (x : CacheState),
        ((if b then bumpCompressions x else x)).stats.hits = x.stats.hits := by
      intro b x
      cases b <;> rfl
    rw [h1, stats_setStore, h2, stats_setStage1]

/-- **C10** (confirmed).  A live, uncompressed, falsy payload stored under a
request's derived key is indistinguishable from a miss at the public
interface: `get` returns the falsy value itself (for a stored `null`,
literally the same `null` a miss returns) while still incrementing `hits`;
the response-cache middleware's `if (cached)` test then takes the uncached
path — it marks the response `MISS`, re-stores the downstream payload
(`sets` is incremented) and throws nothing. -/
theorem c10_falsy_value_looks_like_miss (cfg : Config) (ttl : Option Nat)
    (nowGet nowSet : Nat) (url : String) (query : List (String × JVal))
    (downstream : JVal) (s : CacheState) (e : CacheEntry)
    (hfound : mapGet s.l1 (CacheService.generateKey url query) = some e)
    (hlive : CacheService.isExpired nowGet e = false)
    (hraw : e.compressed = false)
    (hfalsy : jsTruthy e.value = false)
    (hser : stringifyJson downstream ≠ none ∨ cfg.enableCompression = false) :
    (CacheService.get cfg nowGet (CacheService.generateKey url query) s).1 = e.value ∧
    ((CacheService.get cfg nowGet (CacheService.generateKey url query) s).2).stats.hits
      = s.stats.hits + 1 ∧
    (CacheService.middleware cfg ttl nowGet nowSet url query downstream s).status
      = "MISS" ∧
    (CacheService.middleware cfg ttl nowGet nowSet url query downstream s).threw = false ∧
    ((CacheService.middleware cfg ttl nowGet nowSet url query downstream s).state).stats.sets
      = s.stats.sets + 1 ∧
    ((CacheService.middleware cfg ttl nowGet nowSet url query downstream s).state).stats.hits
      = s.stats.hits + 1 := by
  have hget : CacheService.get cfg nowGet (CacheService.generateKey url query) s =
      (e.value, writeTouched nowGet (CacheService.generateKey url query) e false
        (bumpHits s)) := by
    rw [get_eq_hitPath_of_l1_live hfound hlive, hitPath_plain (by simp [hraw])]
  have hok : ∀ s' : CacheState,
      (CacheService.set cfg nowSet (CacheService.generateKey url query) downstream ttl
        defaultSetOptions s').2 = true := by
    intro s'
    cases hcs : compressStep cfg defaultSetOptions downstream with
    | some triple =>
      obtain ⟨cv, comp, d⟩ := triple
      rw [set_of_compressStep_some nowSet (CacheService.generateKey url query) ttl s' hcs]
    | none =>
      unfold compressStep at hcs
      by_cases hc : cfg.enableCompression = true ∧ defaultSetOptions.compress ≠ some false
      · rw [if_pos hc] at hcs
        cases hs2 : stringifyJson downstream with
        | none =>
          rcases hser with h | h
          · exact absurd hs2 h
          · rw [h] at hc
            exact absurd hc.1 (by simp)
        | some str =>
          rw [hs2] at hcs
          dsimp only at hcs
          split at hcs <;> exact absurd hcs (by simp)
      · rw [if_neg hc] at hcs
        exact absurd hcs (by simp)
  have hmw : CacheService.middleware cfg ttl nowGet nowSet url query downstream s =
      ⟨"MISS", downstream,
        (CacheService.set cfg nowSet (CacheService.generateKey url query) downstream ttl
          defaultSetOptions
          (writeTouched nowGet (CacheService.generateKey url query) e false
            (bumpHits s))).1, false⟩ := by
    unfold CacheService.middleware
    dsimp only
    rw [hget]
    dsimp only
    rw [if_neg (by simp [hfalsy])]
    rw [if_pos (hok _)]
  refine ⟨by rw [hget], by rw [hget]; rfl, by rw [hmw], by rw [hmw], ?_, ?_⟩
  · rw [hmw]
    show ((CacheService.set cfg nowSet _ downstream ttl defaultSetOptions _).1).stats.sets = _
    rw [set_ok_sets (hok _)]
    rfl
  · rw [hmw]
    show ((CacheService.set cfg nowSet _ downstream ttl defaultSetOptions _).1).stats.hits = _
    rw [set_stats_hits]
    rfl

/-- A live stored `null` under the key derived from `GET /x` with no query. -/
def entC10 : CacheEntry := ⟨JVal.jnull, false, 100, 0, 0, 0, "L1", []⟩

def stC10 : CacheState := ⟨[("/x", entC10)], [], emptyStats⟩

/-- Witness for C10: stored `null`, request `/x`, downstream payload `5`. -/
theorem c10_falsy_value_looks_like_miss_witness :
    (CacheService.get defaultConfig 0 (CacheService.generateKey "/x" []) stC10).1
      = entC10.value ∧
    ((CacheService.get defaultConfig 0 (CacheService.generateKey "/x" []) stC10).2).stats.hits
      = stC10.stats.hits + 1 ∧
    (CacheService.middleware defaultConfig none 0 0 "/x" [] (JVal.jnum 5) stC10).status
      = "MISS" ∧
    (CacheService.middleware defaultConfig none 0 0 "/x" [] (JVal.jnum 5) stC10).threw
      = false ∧
    ((CacheService.middleware defaultConfig none 0 0 "/x" [] (JVal.jnum 5) stC10).state).stats.sets
      = stC10.stats.sets + 1 ∧
    ((CacheService.middleware defaultConfig none 0 0 "/x" [] (JVal.jnum 5) stC10).state).stats.hits
      = stC10.stats.hits + 1 :=
  c10_falsy_value_looks_like_miss defaultConfig none 0 0 "/x" [] (JVal.jnum 5) stC10 entC10
    rfl (by decide) (by decide) (by decide) (Or.inl (by decide))

end MangaCache
